import Mathlib

/-!
Verification of the multi-agent discussion orchestrator.

Shallow embedding of the core of the repository:
* `src/orchestrator.py` — the turn-taking engine (round-robin, sequential,
  adaptive) over a shared message history;
* `src/agent.py` — the agent capability (`chat`, `chat_with_shared_history`);
* `src/constants.py` — the `OrchestrationMode` enum (members `ROUND_ROBIN`
  and `SEQUENTIAL` only; the source references `OrchestrationMode.ADAPTIVE`
  although no such member is declared);
* `src/models/discussion_state.py`, `src/models/discussion_event.py`,
  `src/services/discussion_manager.py`, and
  `src/api/v1/endpoints/discussions.py` — the discussion lifecycle state,
  the event log, the pub/sub broadcaster and the background runner.

LLM calls (`self.chain.invoke`) are opaque capabilities; they are embedded
as oracle function parameters (`respond` for agents, `promptGen` for the
orchestrator's prompt synthesis, `modResp` for the continuation moderator).
Timestamps (`datetime.utcnow().isoformat()`) are embedded as natural-number
clock values passed explicitly.
-/

namespace MAD

/-- A LangChain message: `role` is "user" (HumanMessage), "assistant"
(AIMessage) or "system" (SystemMessage), as serialized by
`get_conversation_history`. -/
structure Msg where
  role : String
  content : String
deriving Repr, DecidableEq

/-- The `HumanMessage(content=f"[TASK] {task}")` built by
`Orchestrator.add_initial_task`. -/
def taskMsg (task : String) : Msg :=
  { role := "user", content := "[TASK] " ++ task }

/-- `Orchestrator.add_initial_task` (src/orchestrator.py:55-59): appends the
task message to the shared history. -/
def add_initial_task (hist : List Msg) (task : String) : List Msg :=
  hist ++ [taskMsg task]

/-- One response record produced by the run loops
(src/orchestrator.py:167-177, 210-219, 279-285).  `round` is the string
`str(round_num)` stored under the "round" key (absent in sequential mode,
hence `Option`); `prompt_used` is present only when intelligent prompts are
enabled (always present in adaptive mode). -/
structure TurnRec where
  agent_type : String
  role : String
  round : Option String
  response : String
  prompt_used : Option String
deriving Repr, DecidableEq

/-- The `AIMessage(content=f"[{agent.role}]: {response}")` appended to the
shared history after each turn. -/
def fmtMsg (r : TurnRec) : Msg :=
  { role := "assistant", content := "[" ++ r.role ++ "]: " ++ r.response }

/-- The prompt used for one round-robin turn (src/orchestrator.py:151-154):
either the orchestrator-synthesized prompt (`_generate_agent_prompt` with
`round_num=round_num+1`, an oracle `pg`) or the fixed template. -/
def rrPromptOf (pg : String → Option Nat → List Msg → String) (ib : Bool)
    (rn : Nat) (a : String) (hist : List Msg) : String :=
  if ib then pg a (some (rn + 1)) hist
  else "Round " ++ toString (rn + 1) ++ ": Share your perspective on this task."

/-- The prompt used for one sequential turn (src/orchestrator.py:195-198):
`_generate_agent_prompt` without a round number, or the fixed template. -/
def seqPromptOf (pg : String → Option Nat → List Msg → String) (ib : Bool)
    (a : String) (hist : List Msg) : String :=
  if ib then pg a none hist
  else "Share your perspective on this task."

/-- Does the first list lead the second (`str.startswith` on characters)? -/
def listStarts : List Char → List Char → Bool
  | [], _ => true
  | _ :: _, [] => false
  | p :: ps, c :: cs => if p = c then listStarts ps cs else false

/-- Drop leading whitespace characters. -/
def dropLeadingWs : List Char → List Char
  | [] => []
  | c :: cs => if c.isWhitespace then dropLeadingWs cs else c :: cs

/-- Python `str.strip()`: remove leading and trailing whitespace (over the
ASCII whitespace characters, which is what the moderator protocol uses). -/
def pyStrip (s : String) : String :=
  String.mk (dropLeadingWs (dropLeadingWs s.data.reverse).reverse)

/-- Python `str.startswith(p)`. -/
def pyStartsWith (s p : String) : Bool :=
  listStarts p.data s.data

/-- `Orchestrator._should_continue_discussion` (src/orchestrator.py:108-132)
applied to the raw moderator response text: the decision is the stripped
text (`response.content.strip()`), classified "continue" exactly when the
stripped text starts with `CONTINUE`
(`decision.startswith('CONTINUE')`); the pair
`(should_continue, decision)` is returned. -/
def should_continue_decision (raw : String) : Bool × String :=
  let decision := pyStrip raw
  (pyStartsWith decision "CONTINUE", decision)

/-- Inner agent loop of `Orchestrator.run_round_robin`
(src/orchestrator.py:147-177): one round `rn` (0-based, as in
`range(rounds)`) over the configured agent list, threading the shared
history.  `respond a prompt hist` is the oracle for
`agent.chat_with_shared_history(prompt, hist)`; `roles a` is `agent.role`. -/
def runAgentsRR (respond : String → String → List Msg → String)
    (roles : String → String) (pg : String → Option Nat → List Msg → String)
    (ib : Bool) (rn : Nat) : List String → List Msg → List TurnRec × List Msg
  | [], hist => ([], hist)
  | a :: rest, hist =>
    let prompt := rrPromptOf pg ib rn a hist
    let response := respond a prompt hist
    let r : TurnRec :=
      { agent_type := a, role := roles a, round := some (toString (rn + 1)),
        response := response,
        prompt_used := if ib then some prompt else none }
    let out := runAgentsRR respond roles pg ib rn rest (hist ++ [fmtMsg r])
    (r :: out.1, out.2)

/-- Outer round loop of `Orchestrator.run_round_robin`
(src/orchestrator.py:146): `rem` rounds remain, `rn` rounds already done. -/
def runRoundsRR (respond : String → String → List Msg → String)
    (roles : String → String) (pg : String → Option Nat → List Msg → String)
    (ib : Bool) (ats : List String) :
    Nat → Nat → List Msg → List TurnRec × List Msg
  | 0, _, hist => ([], hist)
  | rem + 1, rn, hist =>
    let out1 := runAgentsRR respond roles pg ib rn ats hist
    let out2 := runRoundsRR respond roles pg ib ats rem (rn + 1) out1.2
    (out1.1 ++ out2.1, out2.2)

/-- `Orchestrator.run_round_robin` (src/orchestrator.py:134-179). -/
def run_round_robin (respond : String → String → List Msg → String)
    (roles : String → String) (pg : String → Option Nat → List Msg → String)
    (ats : List String) (rounds : Nat) (ib : Bool) (hist : List Msg) :
    List TurnRec × List Msg :=
  runRoundsRR respond roles pg ib ats rounds 0 hist

/-- Agent loop of `Orchestrator.run_sequential`
(src/orchestrator.py:191-219): each agent speaks once, in order; no round
key in the record. -/
def runAgentsSeq (respond : String → String → List Msg → String)
    (roles : String → String) (pg : String → Option Nat → List Msg → String)
    (ib : Bool) : List String → List Msg → List TurnRec × List Msg
  | [], hist => ([], hist)
  | a :: rest, hist =>
    let prompt := seqPromptOf pg ib a hist
    let response := respond a prompt hist
    let r : TurnRec :=
      { agent_type := a, role := roles a, round := none, response := response,
        prompt_used := if ib then some prompt else none }
    let out := runAgentsSeq respond roles pg ib rest (hist ++ [fmtMsg r])
    (r :: out.1, out.2)

/-- `Orchestrator.run_sequential` (src/orchestrator.py:181-221). -/
def run_sequential (respond : String → String → List Msg → String)
    (roles : String → String) (pg : String → Option Nat → List Msg → String)
    (ats : List String) (ib : Bool) (hist : List Msg) :
    List TurnRec × List Msg :=
  runAgentsSeq respond roles pg ib ats hist

/-- The result record of `Orchestrator.run_adaptive_discussion`
(src/orchestrator.py:291-303). -/
structure AdaptiveResult where
  responses : List TurnRec
  rounds_completed : Nat
  completion_reason : String
  max_rounds_reached : Bool
deriving Repr, DecidableEq

/-- Inner agent loop of one adaptive round (src/orchestrator.py:262-285):
intelligent prompts always on (`_generate_agent_prompt` with
`round_num=round_num`, 1-based here), `prompt_used` always recorded. -/
def runAgentsAdaptive (respond : String → String → List Msg → String)
    (roles : String → String) (pg : String → Option Nat → List Msg → String)
    (rn : Nat) : List String → List Msg → List TurnRec × List Msg
  | [], hist => ([], hist)
  | a :: rest, hist =>
    let prompt := pg a (some rn) hist
    let response := respond a prompt hist
    let r : TurnRec :=
      { agent_type := a, role := roles a, round := some (toString rn),
        response := response, prompt_used := some prompt }
    let out := runAgentsAdaptive respond roles pg rn rest (hist ++ [fmtMsg r])
    (r :: out.1, out.2)

/-- The `while round_num < max_rounds` loop of
`Orchestrator.run_adaptive_discussion` (src/orchestrator.py:258-303):
`rem` is `max_rounds - round_num` remaining rounds, `rn` is `round_num`;
after each round the moderator oracle `modResp` is consulted through
`_should_continue_discussion` and the run returns early when it does not
say CONTINUE. -/
def run_adaptive_loop (respond : String → String → List Msg → String)
    (roles : String → String) (pg : String → Option Nat → List Msg → String)
    (modResp : List Msg → String) (ats : List String) :
    Nat → Nat → List TurnRec → List Msg → AdaptiveResult × List Msg
  | 0, rn, acc, hist =>
    ({ responses := acc, rounds_completed := rn,
       completion_reason := "Maximum rounds reached",
       max_rounds_reached := true }, hist)
  | rem + 1, rn, acc, hist =>
    let out := runAgentsAdaptive respond roles pg (rn + 1) ats hist
    let dec := should_continue_decision (modResp out.2)
    if dec.1 then
      run_adaptive_loop respond roles pg modResp ats rem (rn + 1) (acc ++ out.1) out.2
    else
      ({ responses := acc ++ out.1, rounds_completed := rn + 1,
         completion_reason := dec.2, max_rounds_reached := false }, out.2)

/-- `Orchestrator.run_adaptive_discussion` (src/orchestrator.py:244-303). -/
def run_adaptive_discussion (respond : String → String → List Msg → String)
    (roles : String → String) (pg : String → Option Nat → List Msg → String)
    (modResp : List Msg → String) (ats : List String) (max_rounds : Nat)
    (hist : List Msg) : AdaptiveResult × List Msg :=
  run_adaptive_loop respond roles pg modResp ats max_rounds 0 [] hist

/-- A Python exception raised by the engine.  `attributeError` models the
`AttributeError` raised when a missing attribute (such as a missing enum
member) is dereferenced — its `str()` is the attribute name;
`valueError` models `raise ValueError(msg)`; `capabilityError` models any
exception propagating out of an LLM capability call, carrying `str(e)`. -/
inductive PyErr where
  | attributeError (name : String)
  | valueError (msg : String)
  | capabilityError (msg : String)
deriving Repr, DecidableEq

/-- `str(e)` of an embedded exception. -/
def PyErr.message : PyErr → String
  | .attributeError n => n
  | .valueError m => m
  | .capabilityError m => m

/-- The members actually declared in `class OrchestrationMode(str, Enum)`
(src/constants.py:16-20): only `ROUND_ROBIN` and `SEQUENTIAL`.  There is no
`ADAPTIVE` member, although src/orchestrator.py:239 and :533 reference
`OrchestrationMode.ADAPTIVE`. -/
def orchestrationModeMembers : List (String × String) :=
  [("ROUND_ROBIN", "round_robin"), ("SEQUENTIAL", "sequential")]

/-- Python attribute access `OrchestrationMode.<name>`: yields the member's
value, or raises `AttributeError(name)` when the enum has no such member. -/
def orchModeAttr (name : String) : Except PyErr String :=
  match orchestrationModeMembers.lookup name with
  | some v => Except.ok v
  | none => Except.error (PyErr.attributeError name)

/-- The value returned by `Orchestrator.run_discussion` /
`run_discussion_async`: a plain record list for round-robin and sequential
modes, or an adaptive result record. -/
inductive RunResult where
  | recs (rs : List TurnRec)
  | adaptiveR (r : AdaptiveResult)
deriving Repr, DecidableEq

/-- `Orchestrator.run_discussion` (src/orchestrator.py:223-242).  Dispatch
compares `self.mode` against `OrchestrationMode.ROUND_ROBIN`, then
`OrchestrationMode.SEQUENTIAL`, then `OrchestrationMode.ADAPTIVE` — the
last attribute access raises because the member does not exist — and only
then would raise `ValueError`.  The mode is the runtime string value of
`self.mode` (a `str` enum). -/
def run_discussion (respond : String → String → List Msg → String)
    (roles : String → String) (pg : String → Option Nat → List Msg → String)
    (modResp : List Msg → String) (mode : String) (ats : List String)
    (rounds : Nat) (ib : Bool) (hist : List Msg) :
    Except PyErr (RunResult × List Msg) :=
  match orchModeAttr "ROUND_ROBIN" with
  | Except.error e => Except.error e
  | Except.ok v1 =>
    if mode = v1 then
      let out := run_round_robin respond roles pg ats rounds ib hist
      Except.ok (RunResult.recs out.1, out.2)
    else
      match orchModeAttr "SEQUENTIAL" with
      | Except.error e => Except.error e
      | Except.ok v2 =>
        if mode = v2 then
          let out := run_sequential respond roles pg ats ib hist
          Except.ok (RunResult.recs out.1, out.2)
        else
          match orchModeAttr "ADAPTIVE" with
          | Except.error e => Except.error e
          | Except.ok v3 =>
            if mode = v3 then
              let out := run_adaptive_discussion respond roles pg modResp ats rounds hist
              Except.ok (RunResult.adaptiveR out.1, out.2)
            else
              Except.error (PyErr.valueError ("Unknown orchestration mode: " ++ mode))

/-- Payload of an emitted event, matching the `data` dicts passed to
`_emit_event` in src/orchestrator.py and to `emit_event` /
`discussion.add_event` in src/api/v1/endpoints/discussions.py. -/
inductive EvData where
  | roundStartD (round total_rounds : Nat)
  | thinkingD (agent_type role : String) (round : Nat)
  | thinkingPosD (agent_type role : String) (position total : Nat)
  | respD (r : TurnRec)
  | seqStartD (mode : String) (agent_count : Nat)
  | adStartD (mode : String) (max_rounds : Nat)
  | roundCompleteD (round : Nat) (should_continue : Bool) (reason : String)
  | bgStartD (discussion_id task : String) (agent_types : List String) (mode : String)
  | completeD (total_responses : Nat) (conversation_history : List (String × String))
      (result : RunResult)
  | errorD (error : String)
deriving Repr, DecidableEq

/-- An event as handed to the event callback: `(event_type, data)`. -/
abbrev EvPayload : Type := String × EvData

/-- Inner agent loop of `Orchestrator.run_round_robin_async`
(src/orchestrator.py:323-365): emits `agent_thinking` before and
`agent_response` after each turn; the agent capability may raise
(`Except.error` with `str(e)`), which aborts the loop, keeping the events
already emitted. -/
def runAgentsRRAsync (respond : String → String → List Msg → Except String String)
    (roles : String → String) (pg : String → Option Nat → List Msg → String)
    (ib : Bool) (rn : Nat) :
    List String → List Msg → List EvPayload × List Msg × Except String (List TurnRec)
  | [], hist => ([], hist, Except.ok [])
  | a :: rest, hist =>
    let think : EvPayload := ("agent_thinking", EvData.thinkingD a (roles a) (rn + 1))
    let prompt := rrPromptOf pg ib rn a hist
    match respond a prompt hist with
    | Except.error e => ([think], hist, Except.error e)
    | Except.ok response =>
      let r : TurnRec :=
        { agent_type := a, role := roles a, round := some (toString (rn + 1)),
          response := response,
          prompt_used := if ib then some prompt else none }
      let out := runAgentsRRAsync respond roles pg ib rn rest (hist ++ [fmtMsg r])
      (think :: ("agent_response", EvData.respD r) :: out.1, out.2.1,
        Except.map (fun rs => r :: rs) out.2.2)

/-- Outer round loop of `Orchestrator.run_round_robin_async`
(src/orchestrator.py:317-321): emits `round_start` for each round. -/
def runRoundsRRAsync (respond : String → String → List Msg → Except String String)
    (roles : String → String) (pg : String → Option Nat → List Msg → String)
    (ib : Bool) (ats : List String) (total : Nat) :
    Nat → Nat → List Msg → List EvPayload × List Msg × Except String (List TurnRec)
  | 0, _, hist => ([], hist, Except.ok [])
  | rem + 1, rn, hist =>
    let rsEv : EvPayload := ("round_start", EvData.roundStartD (rn + 1) total)
    let out1 := runAgentsRRAsync respond roles pg ib rn ats hist
    match out1.2.2 with
    | Except.error e => (rsEv :: out1.1, out1.2.1, Except.error e)
    | Except.ok rs1 =>
      let out2 := runRoundsRRAsync respond roles pg ib ats total rem (rn + 1) out1.2.1
      (rsEv :: out1.1 ++ out2.1, out2.2.1,
        Except.map (fun rs2 => rs1 ++ rs2) out2.2.2)

/-- `Orchestrator.run_round_robin_async` (src/orchestrator.py:305-367). -/
def run_round_robin_async (respond : String → String → List Msg → Except String String)
    (roles : String → String) (pg : String → Option Nat → List Msg → String)
    (ats : List String) (rounds : Nat) (ib : Bool) (hist : List Msg) :
    List EvPayload × List Msg × Except String (List TurnRec) :=
  runRoundsRRAsync respond roles pg ib ats rounds rounds 0 hist

/-- Agent loop of `Orchestrator.run_sequential_async`
(src/orchestrator.py:383-424): `agent_thinking` carries the 1-based
position and the total count. -/
def runAgentsSeqAsync (respond : String → String → List Msg → Except String String)
    (roles : String → String) (pg : String → Option Nat → List Msg → String)
    (ib : Bool) (total : Nat) :
    List String → Nat → List Msg → List EvPayload × List Msg × Except String (List TurnRec)
  | [], _, hist => ([], hist, Except.ok [])
  | a :: rest, idx, hist =>
    let think : EvPayload := ("agent_thinking", EvData.thinkingPosD a (roles a) (idx + 1) total)
    let prompt := seqPromptOf pg ib a hist
    match respond a prompt hist with
    | Except.error e => ([think], hist, Except.error e)
    | Except.ok response =>
      let r : TurnRec :=
        { agent_type := a, role := roles a, round := none, response := response,
          prompt_used := if ib then some prompt else none }
      let out := runAgentsSeqAsync respond roles pg ib total rest (idx + 1) (hist ++ [fmtMsg r])
      (think :: ("agent_response", EvData.respD r) :: out.1, out.2.1,
        Except.map (fun rs => r :: rs) out.2.2)

/-- `Orchestrator.run_sequential_async` (src/orchestrator.py:369-426):
emits `discussion_start{mode: "sequential", agent_count}` first. -/
def run_sequential_async (respond : String → String → List Msg → Except String String)
    (roles : String → String) (pg : String → Option Nat → List Msg → String)
    (ats : List String) (ib : Bool) (hist : List Msg) :
    List EvPayload × List Msg × Except String (List TurnRec) :=
  let out := runAgentsSeqAsync respond roles pg ib ats.length ats 0 hist
  (("discussion_start", EvData.seqStartD "sequential" ats.length) :: out.1, out.2.1, out.2.2)

/-- Inner agent loop of one round of
`Orchestrator.run_adaptive_discussion_async` (src/orchestrator.py:455-491). -/
def runAgentsAdaptiveAsync (respond : String → String → List Msg → Except String String)
    (roles : String → String) (pg : String → Option Nat → List Msg → String)
    (rn : Nat) : List String → List Msg → List EvPayload × List Msg × Except String (List TurnRec)
  | [], hist => ([], hist, Except.ok [])
  | a :: rest, hist =>
    let think : EvPayload := ("agent_thinking", EvData.thinkingD a (roles a) rn)
    let prompt := pg a (some rn) hist
    match respond a prompt hist with
    | Except.error e => ([think], hist, Except.error e)
    | Except.ok response =>
      let r : TurnRec :=
        { agent_type := a, role := roles a, round := some (toString rn),
          response := response, prompt_used := some prompt }
      let out := runAgentsAdaptiveAsync respond roles pg rn rest (hist ++ [fmtMsg r])
      (think :: ("agent_response", EvData.respD r) :: out.1, out.2.1,
        Except.map (fun rs => r :: rs) out.2.2)

/-- Round loop of `Orchestrator.run_adaptive_discussion_async`
(src/orchestrator.py:446-515): emits `round_start` and, after each
completed round, `round_complete{round, should_continue, reason}`. -/
def runAdaptiveLoopAsync (respond : String → String → List Msg → Except String String)
    (roles : String → String) (pg : String → Option Nat → List Msg → String)
    (modResp : List Msg → String) (ats : List String) (maxr : Nat) :
    Nat → Nat → List TurnRec → List Msg →
      List EvPayload × List Msg × Except String AdaptiveResult
  | 0, rn, acc, hist =>
    ([], hist, Except.ok
      { responses := acc, rounds_completed := rn,
        completion_reason := "Maximum rounds reached", max_rounds_reached := true })
  | rem + 1, rn, acc, hist =>
    let rsEv : EvPayload := ("round_start", EvData.roundStartD (rn + 1) maxr)
    let out := runAgentsAdaptiveAsync respond roles pg (rn + 1) ats hist
    match out.2.2 with
    | Except.error e => (rsEv :: out.1, out.2.1, Except.error e)
    | Except.ok rs =>
      let dec := should_continue_decision (modResp out.2.1)
      let rcEv : EvPayload := ("round_complete", EvData.roundCompleteD (rn + 1) dec.1 dec.2)
      if dec.1 then
        let out2 := runAdaptiveLoopAsync respond roles pg modResp ats maxr rem (rn + 1)
          (acc ++ rs) out.2.1
        (rsEv :: out.1 ++ [rcEv] ++ out2.1, out2.2.1, out2.2.2)
      else
        (rsEv :: out.1 ++ [rcEv], out.2.1, Except.ok
          { responses := acc ++ rs, rounds_completed := rn + 1,
            completion_reason := dec.2, max_rounds_reached := false })

/-- `Orchestrator.run_adaptive_discussion_async`
(src/orchestrator.py:428-515): emits
`discussion_start{mode: "adaptive", max_rounds}` first. -/
def run_adaptive_discussion_async (respond : String → String → List Msg → Except String String)
    (roles : String → String) (pg : String → Option Nat → List Msg → String)
    (modResp : List Msg → String) (ats : List String) (max_rounds : Nat)
    (hist : List Msg) : List EvPayload × List Msg × Except String AdaptiveResult :=
  let out := runAdaptiveLoopAsync respond roles pg modResp ats max_rounds max_rounds 0 [] hist
  (("discussion_start", EvData.adStartD "adaptive" max_rounds) :: out.1, out.2.1, out.2.2)

/-- `Orchestrator.run_discussion_async` (src/orchestrator.py:517-536): same
dispatch as `run_discussion`, over the async variants; capability errors
from a run are `capabilityError`, and the dead reference to
`OrchestrationMode.ADAPTIVE` raises `attributeError` before any turn. -/
def run_discussion_async (respond : String → String → List Msg → Except String String)
    (roles : String → String) (pg : String → Option Nat → List Msg → String)
    (modResp : List Msg → String) (mode : String) (ats : List String)
    (rounds : Nat) (ib : Bool) (hist : List Msg) :
    List EvPayload × List Msg × Except PyErr RunResult :=
  match orchModeAttr "ROUND_ROBIN" with
  | Except.error e => ([], hist, Except.error e)
  | Except.ok v1 =>
    if mode = v1 then
      let out := run_round_robin_async respond roles pg ats rounds ib hist
      (out.1, out.2.1,
        Except.map RunResult.recs (Except.mapError PyErr.capabilityError out.2.2))
    else
      match orchModeAttr "SEQUENTIAL" with
      | Except.error e => ([], hist, Except.error e)
      | Except.ok v2 =>
        if mode = v2 then
          let out := run_sequential_async respond roles pg ats ib hist
          (out.1, out.2.1,
            Except.map RunResult.recs (Except.mapError PyErr.capabilityError out.2.2))
        else
          match orchModeAttr "ADAPTIVE" with
          | Except.error e => ([], hist, Except.error e)
          | Except.ok v3 =>
            if mode = v3 then
              let out := run_adaptive_discussion_async respond roles pg modResp ats rounds hist
              (out.1, out.2.1,
                Except.map RunResult.adaptiveR (Except.mapError PyErr.capabilityError out.2.2))
            else
              ([], hist, Except.error (PyErr.valueError ("Unknown orchestration mode: " ++ mode)))

/-- Modelled from the spec: the `DiscussionStatus` enum
(states `PENDING`, `RUNNING`, `COMPLETED`, `FAILED`, spec §3/§4.3).  It is
imported from `constants` by src/services/discussion_manager.py and
src/api/v1/endpoints/discussions.py but its declaration is missing from
src/constants.py. -/
inductive DiscussionStatus where
  | PENDING
  | RUNNING
  | COMPLETED
  | FAILED
deriving Repr, DecidableEq

/-- `DiscussionEvent` (src/models/discussion_event.py); the timestamp is a
clock value standing for `datetime.utcnow().isoformat()`. -/
structure DiscussionEvent where
  event_type : String
  timestamp : Nat
  data : EvData
deriving Repr, DecidableEq

/-- `DiscussionState` (src/models/discussion_state.py). -/
structure DiscussionState where
  discussion_id : String
  session_id : String
  task : String
  agent_types : List String
  mode : String
  status : DiscussionStatus
  created_at : Nat
  started_at : Option Nat := none
  completed_at : Option Nat := none
  events : List DiscussionEvent := []
  error : Option String := none
deriving Repr, DecidableEq

/-- `DiscussionState.add_event` (src/models/discussion_state.py:23-31):
builds an event stamped with the current time and appends it to `events`. -/
def DiscussionState.add_event (d : DiscussionState) (ty : String) (data : EvData)
    (now : Nat) : DiscussionState × DiscussionEvent :=
  let ev : DiscussionEvent := { event_type := ty, timestamp := now, data := data }
  ({ d with events := d.events ++ [ev] }, ev)

/-- The per-discussion body of `DiscussionManager.update_status`
(src/services/discussion_manager.py:46-61): the status is always
overwritten; `started_at` is set when the new status is RUNNING and
`started_at` is still falsy; otherwise (`elif`) `completed_at` is set when
the new status is COMPLETED or FAILED; the `error` argument is stored only
when truthy (so `None` and the empty string are both dropped). -/
def update_status_state (d : DiscussionState) (s : DiscussionStatus)
    (error : Option String) (now : Nat) : DiscussionState :=
  let d1 := { d with status := s }
  let d2 :=
    if s = DiscussionStatus.RUNNING ∧ d1.started_at = none then
      { d1 with started_at := some now }
    else if s = DiscussionStatus.COMPLETED ∨ s = DiscussionStatus.FAILED then
      { d1 with completed_at := some now }
    else d1
  match error with
  | some e => if e ≠ "" then { d2 with error := some e } else d2
  | none => d2

/-- An operation of the public interface acting on one discussion's event
list: `addEvent` is `DiscussionState.add_event` (the only way events are
produced, via the `emit_event` callback); `clearHistory` is the body of
`DELETE /{discussion_id}/history` (src/api/v1/endpoints/discussions.py:
279-298), which sets `discussion.events = []`; `query` stands for the
read-only endpoints (status, history, list, stream), which do not touch
`events`. -/
inductive DiscOp where
  | addEvent (ty : String) (data : EvData) (now : Nat)
  | clearHistory
  | query
deriving Repr, DecidableEq

/-- Effect of one public-interface operation on a discussion's state. -/
def applyDiscOp : DiscOp → DiscussionState → DiscussionState
  | DiscOp.addEvent ty data now, d => (d.add_event ty data now).1
  | DiscOp.clearHistory, d => { d with events := [] }
  | DiscOp.query, d => d

/-- Fold a sequence of `update_status` calls over one discussion, stamping
call `i` with time `t0 + i` (each `datetime.utcnow()` strictly later than
the previous). -/
def apply_status_calls (d : DiscussionState)
    (calls : List (DiscussionStatus × Option String)) (t0 : Nat) : DiscussionState :=
  match calls with
  | [] => d
  | c :: rest => apply_status_calls (update_status_state d c.1 c.2 t0) rest (t0 + 1)

/-- Index (counting from `base`) of the first list element satisfying `p`. -/
def firstIdxFrom (p : DiscussionStatus → Bool) (base : Nat) :
    List DiscussionStatus → Option Nat
  | [] => none
  | s :: rest => if p s then some base else firstIdxFrom p (base + 1) rest

/-- Index (counting from `base`) of the last list element satisfying `p`. -/
def lastIdxFrom (p : DiscussionStatus → Bool) (base : Nat) :
    List DiscussionStatus → Option Nat
  | [] => none
  | s :: rest =>
    match lastIdxFrom p (base + 1) rest with
    | some i => some i
    | none => if p s then some base else none

/-- Association-list lookup (a Python dict keyed by strings). -/
def lookupA {α : Type} (k : String) : List (String × α) → Option α
  | [] => none
  | kv :: rest => if kv.1 = k then some kv.2 else lookupA k rest

/-- Update the value stored under key `k`, if present. -/
def modifyAssoc {α : Type} (f : α → α) (k : String) :
    List (String × α) → List (String × α)
  | [] => []
  | kv :: rest =>
    if kv.1 = k then (kv.1, f kv.2) :: rest else kv :: modifyAssoc f k rest

/-- `DiscussionManager` (src/services/discussion_manager.py:13-19):
discussion states keyed by discussion id, and per-discussion subscriber
queues (each queue embedded as the list of events delivered to it so far;
`queue.put` is an append). -/
structure DiscussionManager where
  discussions : List (String × DiscussionState)
  subscribers : List (String × List (List DiscussionEvent))
deriving Repr, DecidableEq

/-- `DiscussionManager.update_status` (src/services/discussion_manager.py:
46-61): looks the discussion up and mutates it in place; a missing id is a
no-op. -/
def DiscussionManager.update_status (m : DiscussionManager) (id : String)
    (s : DiscussionStatus) (error : Option String) (now : Nat) : DiscussionManager :=
  match lookupA id m.discussions with
  | none => m
  | some _ =>
    { m with discussions :=
        modifyAssoc (fun d => update_status_state d s error now) id m.discussions }

/-- `DiscussionManager.broadcast_event` (src/services/discussion_manager.py:
63-68): `await queue.put(event)` on every queue subscribed to the id; when
the id has no subscriber entry, nothing happens. -/
def DiscussionManager.broadcast_event (m : DiscussionManager) (id : String)
    (ev : DiscussionEvent) : DiscussionManager :=
  match lookupA id m.subscribers with
  | none => m
  | some _ =>
    { m with subscribers :=
        modifyAssoc (fun qs => qs.map (fun q => q ++ [ev])) id m.subscribers }

/-- The `emit_event` closure of `run_orchestration_background`
(src/api/v1/endpoints/discussions.py:38-40): `discussion.add_event(...)`
followed by `discussion_manager.broadcast_event(...)`.  The discussion is
present in the manager whenever the background task runs (it was created
by the start endpoint before scheduling). -/
def emit_event (m : DiscussionManager) (id : String) (ty : String)
    (data : EvData) (now : Nat) : DiscussionManager :=
  let ev : DiscussionEvent := { event_type := ty, timestamp := now, data := data }
  let m1 : DiscussionManager :=
    { m with discussions :=
        modifyAssoc (fun d => { d with events := d.events ++ [ev] }) id m.discussions }
  m1.broadcast_event id ev

/-- Publish a list of payloads in order through `emit_event`, ticking the
clock. -/
def publishAll (m : DiscussionManager) (id : String) :
    List EvPayload → Nat → DiscussionManager × Nat
  | [], now => (m, now)
  | p :: rest, now => publishAll (emit_event m id p.1 p.2 now) id rest (now + 1)

/-- The stamped events a payload list turns into, starting at time `now`. -/
def stampEvs : List EvPayload → Nat → List DiscussionEvent
  | [], _ => []
  | p :: rest, now =>
    { event_type := p.1, timestamp := now, data := p.2 } :: stampEvs rest (now + 1)

/-- `len(result)` for a list result or `len(result.get("responses", []))`
for an adaptive result (src/api/v1/endpoints/discussions.py:69). -/
def RunResult.totalResponses : RunResult → Nat
  | RunResult.recs rs => rs.length
  | RunResult.adaptiveR r => r.responses.length

/-- `run_orchestration_background` (src/api/v1/endpoints/discussions.py:
19-89): set RUNNING, create a fresh orchestrator (empty shared history),
add the initial task, emit `discussion_start`, run the discussion
(emitting events through the callback), then on success emit
`discussion_complete` and set COMPLETED; when any exception `e` escapes,
set FAILED with `error=str(e)` and append+broadcast one `error` event. -/
def run_orchestration_background (m0 : DiscussionManager) (clock : Nat)
    (respond : String → String → List Msg → Except String String)
    (roles : String → String) (pg : String → Option Nat → List Msg → String)
    (modResp : List Msg → String) (id : String) (task : String)
    (ats : List String) (mode : String) (rounds : Nat) (ib : Bool) :
    DiscussionManager :=
  let m1 := m0.update_status id DiscussionStatus.RUNNING none clock
  let m2 := emit_event m1 id "discussion_start"
    (EvData.bgStartD id task ats mode) (clock + 1)
  let hist0 := add_initial_task [] task
  let out := run_discussion_async respond roles pg modResp mode ats rounds ib hist0
  let pubbed := publishAll m2 id out.1 (clock + 2)
  match out.2.2 with
  | Except.ok r =>
    let m4 := emit_event pubbed.1 id "discussion_complete"
      (EvData.completeD r.totalResponses
        (out.2.1.map (fun ms => (ms.role, ms.content))) r) pubbed.2
    m4.update_status id DiscussionStatus.COMPLETED none (pubbed.2 + 1)
  | Except.error e =>
    let m4 := pubbed.1.update_status id DiscussionStatus.FAILED
      (some e.message) pubbed.2
    emit_event m4 id "error" (EvData.errorD e.message) (pubbed.2 + 1)

/-- `Agent` state (src/agent.py): its role, agent type and its own
`conversation_history`.  The LLM chain is an oracle taken per call. -/
structure AgentState where
  role : String
  agent_type : String
  conversation_history : List Msg
deriving Repr, DecidableEq

/-- `Agent.chat` (src/agent.py:61-94): invokes the chain on the agent's own
history, then appends the human message and the reply to
`conversation_history`.  Returned as (response, updated agent). -/
def Agent.chat (a : AgentState) (llm : List Msg → String → String)
    (message : String) : String × AgentState :=
  let response := llm a.conversation_history message
  (response,
    { a with conversation_history :=
        a.conversation_history ++
          [{ role := "user", content := message },
           { role := "assistant", content := response }] })

/-- `Agent.chat_with_shared_history` (src/agent.py:96-146): invokes the
chain on the externally supplied history and returns `response.content`;
the body performs no write to `self.conversation_history` nor to the
passed-in `history` list, so both come back exactly as given.  Returned as
(response, agent after the call, history list after the call). -/
def Agent.chat_with_shared_history (a : AgentState)
    (llm : List Msg → String → String) (message : String)
    (history : List Msg) : String × AgentState × List Msg :=
  let response := llm history message
  (response, a, history)

/-- True exactly for status RUNNING. -/
def isRunningS : DiscussionStatus → Bool
  | DiscussionStatus.RUNNING => true
  | _ => false

/-- True exactly for the statuses COMPLETED and FAILED. -/
def isTerminalS : DiscussionStatus → Bool
  | DiscussionStatus.COMPLETED => true
  | DiscussionStatus.FAILED => true
  | _ => false

/-- The state built by `DiscussionManager.create_discussion`
(src/services/discussion_manager.py:21-40): status PENDING, no timestamps
beyond `created_at`, empty event list, no error. -/
def create_discussion_state (id sid task : String) (ats : List String)
    (mode : String) (now : Nat) : DiscussionState :=
  { discussion_id := id, session_id := sid, task := task, agent_types := ats,
    mode := mode, status := DiscussionStatus.PENDING, created_at := now }

/-- `DiscussionManager.create_discussion`: stores the fresh state under its
id. -/
def DiscussionManager.create_discussion (m : DiscussionManager)
    (id sid task : String) (ats : List String) (mode : String) (now : Nat) :
    DiscussionManager :=
  { m with discussions := m.discussions ++ [(id, create_discussion_state id sid task ats mode now)] }

/-- Concrete agent list used by the witness instances: the two agent types
of `AGENT_CONFIGS` (src/constants.py). -/
def atsEx : List String := ["junior_engineer", "product_manager"]

/-- Concrete agent-response oracle for witnesses. -/
def respondEx : String → String → List Msg → String :=
  fun a _p _h => "reply-" ++ a

/-- Concrete role table for witnesses (`agent.role` per agent type). -/
def rolesEx : String → String :=
  fun a => if a = "junior_engineer" then "Junior Engineer" else "Product Manager"

/-- Concrete prompt-synthesis oracle for witnesses. -/
def pgEx : String → Option Nat → List Msg → String :=
  fun _a _rn _h => "focus on the task"

/-- Concrete moderator oracle for witnesses: always judges complete. -/
def modRespEx : List Msg → String :=
  fun _h => "COMPLETE: done"

/-- Infallible async agent oracle for witnesses. -/
def respondOkEx : String → String → List Msg → Except String String :=
  fun a p h => Except.ok (respondEx a p h)

/-- Always-failing async agent oracle (an LLM call raising `boom`). -/
def respondFailEx : String → String → List Msg → Except String String :=
  fun _a _p _h => Except.error "boom"

/-- Async agent oracle failing with an empty exception message. -/
def respondFailEmptyEx : String → String → List Msg → Except String String :=
  fun _a _p _h => Except.error ""

/-- A discussion state holding one event, for the event-log counterexample. -/
def exDiscWithEvent : DiscussionState :=
  { create_discussion_state "d1" "s1" "t" atsEx "round_robin" 0 with
      events := [{ event_type := "round_start", timestamp := 1,
                   data := EvData.roundStartD 1 2 }] }

/-- A manager holding one fresh discussion `d1` and one subscriber queue. -/
def exManager : DiscussionManager :=
  { discussions := [("d1", create_discussion_state "d1" "s1" "t" atsEx "round_robin" 0)],
    subscribers := [("d1", [[]])] }

/-- The second record a sequential run over `atsEx` with `respondEx`
produces. -/
def seqWitnessRec : TurnRec :=
  { agent_type := "product_manager", role := "Product Manager", round := none,
    response := "reply-product_manager", prompt_used := none }

/-! ## Theorems -/

/-- C4 (counterexample).  The claim says a response is classified
"continue" iff its text begins with the literal token `CONTINUE`, and that
the full decision text is returned as the reason.  The code first strips
the text (src/orchestrator.py:129): a response whose raw text begins with
a space before `CONTINUE` is classified "continue" although its text does
not begin with the token, and the returned reason is the stripped text,
not the full raw text. -/
theorem continue_decision_not_raw_text :
    (should_continue_decision " CONTINUE: keep going").1 = true ∧
    pyStartsWith " CONTINUE: keep going" "CONTINUE" = false ∧
    (should_continue_decision " CONTINUE: keep going").2 ≠ " CONTINUE: keep going" := by
  refine ⟨by decide, by decide, by decide⟩

/-- C4 (amended).  `_should_continue_discussion` classifies the moderator
response as "continue" iff the stripped response text begins with the
literal token `CONTINUE`; any other response (malformed or ambiguous
included) is classified complete, and the stripped decision text is what
is returned as the reason. -/
theorem continue_decision_spec (raw : String) :
    ((should_continue_decision raw).1 = true ↔
      pyStartsWith (pyStrip raw) "CONTINUE" = true) ∧
    (should_continue_decision raw).2 = pyStrip raw :=
  ⟨Iff.rfl, rfl⟩

/-- C10.  `Agent.chat_with_shared_history` is stateless per orchestrated
call: the agent's own `conversation_history` and the history list passed
in both come back unchanged, the reply being exactly the chain's output on
the given history; and it is the orchestrator that afterwards appends the
role-tagged reply to the shared history, before any further agent runs
(shown on a one-agent round-robin step). -/
theorem chat_with_shared_history_frame (a : AgentState)
    (llm : List Msg → String → String) (message : String) (history : List Msg) :
    (Agent.chat_with_shared_history a llm message history).2.1 = a ∧
    (Agent.chat_with_shared_history a llm message history).2.2 = history ∧
    (Agent.chat_with_shared_history a llm message history).1 = llm history message ∧
    (∀ (respond : String → String → List Msg → String) (roles : String → String)
       (pg : String → Option Nat → List Msg → String) (ib : Bool) (rn : Nat)
       (at1 : String) (hist : List Msg),
       ∃ r1, (runAgentsRR respond roles pg ib rn [at1] hist).1 = [r1] ∧
         (runAgentsRR respond roles pg ib rn [at1] hist).2 = hist ++ [fmtMsg r1]) := by
  refine ⟨rfl, rfl, rfl, ?_⟩
  intro respond roles pg ib rn at1 hist
  exact ⟨_, rfl, rfl⟩

/-- C6 (counterexample).  The claim says no operation of the public
interface removes events.  The endpoint `DELETE /{discussion_id}/history`
(src/api/v1/endpoints/discussions.py:279-298) sets `discussion.events = []`:
on a discussion holding one event it leaves an event list that is not an
extension of the previous one. -/
theorem clear_history_removes_events :
    exDiscWithEvent.events.length = 1 ∧
    (applyDiscOp DiscOp.clearHistory exDiscWithEvent).events = [] ∧
    ¬ (∃ tail, (applyDiscOp DiscOp.clearHistory exDiscWithEvent).events =
        exDiscWithEvent.events ++ tail) := by
  refine ⟨rfl, rfl, ?_⟩
  rintro ⟨tail, h⟩
  simp [applyDiscOp, exDiscWithEvent, create_discussion_state] at h

/-- C6 (amended).  Every operation of the public interface either appends
events at the end of the discussion's event list (in emission order) or
leaves it unchanged — with the single exception of the clear-history
endpoint, which resets the list to empty; no operation otherwise removes,
replaces, or reorders events already in the list. -/
theorem events_append_or_clear (op : DiscOp) (d : DiscussionState) :
    (∃ tail, (applyDiscOp op d).events = d.events ++ tail) ∨
    (op = DiscOp.clearHistory ∧ (applyDiscOp op d).events = []) := by
  cases op with
  | addEvent ty data now =>
    exact Or.inl ⟨[{ event_type := ty, timestamp := now, data := data }], rfl⟩
  | clearHistory => exact Or.inr ⟨rfl, rfl⟩
  | query => exact Or.inl ⟨[], by simp [applyDiscOp]⟩

/-- C5.  `run_discussion` dispatches round_robin to the round-robin
algorithm and sequential to the sequential algorithm, but for every other
mode value — "adaptive" included — it raises `AttributeError("ADAPTIVE")`
while evaluating `OrchestrationMode.ADAPTIVE` (src/orchestrator.py:239),
because the enum in src/constants.py declares no ADAPTIVE member; the
`ValueError` branch and the adaptive algorithm are unreachable through
dispatch. -/
theorem run_discussion_dispatch (respond : String → String → List Msg → String)
    (roles : String → String) (pg : String → Option Nat → List Msg → String)
    (modResp : List Msg → String) (ats : List String) (rounds : Nat)
    (ib : Bool) (hist : List Msg) :
    (run_discussion respond roles pg modResp "round_robin" ats rounds ib hist =
      Except.ok (RunResult.recs (run_round_robin respond roles pg ats rounds ib hist).1,
        (run_round_robin respond roles pg ats rounds ib hist).2)) ∧
    (run_discussion respond roles pg modResp "sequential" ats rounds ib hist =
      Except.ok (RunResult.recs (run_sequential respond roles pg ats ib hist).1,
        (run_sequential respond roles pg ats ib hist).2)) ∧
    (∀ mode : String, mode ≠ "round_robin" → mode ≠ "sequential" →
      run_discussion respond roles pg modResp mode ats rounds ib hist =
        Except.error (PyErr.attributeError "ADAPTIVE")) := by
  have e1 : orchModeAttr "ROUND_ROBIN" = Except.ok "round_robin" := rfl
  have e2 : orchModeAttr "SEQUENTIAL" = Except.ok "sequential" := rfl
  have e3 : orchModeAttr "ADAPTIVE" = Except.error (PyErr.attributeError "ADAPTIVE") := rfl
  refine ⟨?_, ?_, ?_⟩
  · simp [run_discussion, e1]
  · simp [run_discussion, e1, e2]
  · intro mode h1 h2
    simp [run_discussion, e1, e2, e3, h1, h2]

/-- C5 (witness).  Evaluating the dispatch at the failing input
`mode = "adaptive"`: the engine raises `AttributeError("ADAPTIVE")`, not a
`ValueError`, and never reaches the adaptive algorithm. -/
theorem run_discussion_dispatch_witness :
    run_discussion respondEx rolesEx pgEx modRespEx "adaptive" atsEx 2 false
      (add_initial_task [] "t") = Except.error (PyErr.attributeError "ADAPTIVE") :=
  (run_discussion_dispatch respondEx rolesEx pgEx modRespEx atsEx 2 false
    (add_initial_task [] "t")).2.2 "adaptive" (by decide) (by decide)

theorem runAgentsRR_length (respond : String → String → List Msg → String)
    (roles : String → String) (pg : String → Option Nat → List Msg → String)
    (ib : Bool) (rn : Nat) (agents : List String) :
    ∀ hist, (runAgentsRR respond roles pg ib rn agents hist).1.length = agents.length := by
  induction agents with
  | nil => intro hist; rfl
  | cons a rest ih => intro hist; simp [runAgentsRR, ih]

theorem runAgentsRR_hist (respond : String → String → List Msg → String)
    (roles : String → String) (pg : String → Option Nat → List Msg → String)
    (ib : Bool) (rn : Nat) (agents : List String) :
    ∀ hist, (runAgentsRR respond roles pg ib rn agents hist).2 =
      hist ++ ((runAgentsRR respond roles pg ib rn agents hist).1).map fmtMsg := by
  induction agents with
  | nil => intro hist; simp [runAgentsRR]
  | cons a rest ih => intro hist; simp [runAgentsRR, ih]

theorem runAgentsRR_get (respond : String → String → List Msg → String)
    (roles : String → String) (pg : String → Option Nat → List Msg → String)
    (ib : Bool) (rn : Nat) (agents : List String) :
    ∀ hist (j : Nat),
      ((runAgentsRR respond roles pg ib rn agents hist).1[j]?).map TurnRec.agent_type =
        agents[j]? := by
  induction agents with
  | nil => intro hist j; simp [runAgentsRR]
  | cons a rest ih =>
    intro hist j
    cases j with
    | zero => simp [runAgentsRR]
    | succ k => simp [runAgentsRR, ih]

theorem runAgentsRR_round_role (respond : String → String → List Msg → String)
    (roles : String → String) (pg : String → Option Nat → List Msg → String)
    (ib : Bool) (rn : Nat) (agents : List String) :
    ∀ hist r1, r1 ∈ (runAgentsRR respond roles pg ib rn agents hist).1 →
      r1.round = some (toString (rn + 1)) ∧ r1.role = roles r1.agent_type := by
  induction agents with
  | nil => intro hist r1 h; simp [runAgentsRR] at h
  | cons a rest ih =>
    intro hist r1 h
    simp only [runAgentsRR, List.mem_cons] at h
    rcases h with h | h
    · subst h; exact ⟨rfl, rfl⟩
    · exact ih _ r1 h

theorem runRoundsRR_length (respond : String → String → List Msg → String)
    (roles : String → String) (pg : String → Option Nat → List Msg → String)
    (ib : Bool) (ats : List String) (rem : Nat) :
    ∀ rn hist, (runRoundsRR respond roles pg ib ats rem rn hist).1.length =
      rem * ats.length := by
  induction rem with
  | zero => intro rn hist; simp [runRoundsRR]
  | succ m ih =>
    intro rn hist
    simp [runRoundsRR, runAgentsRR_length, ih, Nat.succ_mul]
    omega

theorem runRoundsRR_hist (respond : String → String → List Msg → String)
    (roles : String → String) (pg : String → Option Nat → List Msg → String)
    (ib : Bool) (ats : List String) (rem : Nat) :
    ∀ rn hist, (runRoundsRR respond roles pg ib ats rem rn hist).2 =
      hist ++ ((runRoundsRR respond roles pg ib ats rem rn hist).1).map fmtMsg := by
  induction rem with
  | zero => intro rn hist; simp [runRoundsRR]
  | succ m ih =>
    intro rn hist
    simp [runRoundsRR, ih, runAgentsRR_hist, List.append_assoc]

theorem runRoundsRR_idx (respond : String → String → List Msg → String)
    (roles : String → String) (pg : String → Option Nat → List Msg → String)
    (ib : Bool) (ats : List String) (rem : Nat) :
    ∀ rn hist k, k < rem * ats.length →
      ∃ r1, (runRoundsRR respond roles pg ib ats rem rn hist).1[k]? = some r1 ∧
        ats[k % ats.length]? = some r1.agent_type ∧
        r1.role = roles r1.agent_type ∧
        r1.round = some (toString (rn + k / ats.length + 1)) := by
  induction rem with
  | zero => intro rn hist k hk; simp at hk
  | succ m ih =>
    intro rn hist k hk
    have hN : 0 < ats.length := by
      rcases Nat.eq_zero_or_pos ats.length with h0 | h0
      · rw [h0] at hk; simp at hk
      · exact h0
    have hlen1 : (runAgentsRR respond roles pg ib rn ats hist).1.length = ats.length :=
      runAgentsRR_length respond roles pg ib rn ats hist
    by_cases hkN : k < ats.length
    · have hsplit : (runRoundsRR respond roles pg ib ats (m + 1) rn hist).1[k]? =
          (runAgentsRR respond roles pg ib rn ats hist).1[k]? := by
        simp only [runRoundsRR]
        exact List.getElem?_append_left (by rw [hlen1]; exact hkN)
      have hget := runAgentsRR_get respond roles pg ib rn ats hist k
      have ha : ats[k]? = some ats[k] := List.getElem?_eq_getElem hkN
      rw [ha] at hget
      obtain ⟨r1, hr1, hty⟩ := Option.map_eq_some'.mp hget
      have hmem : r1 ∈ (runAgentsRR respond roles pg ib rn ats hist).1 :=
        List.getElem?_mem hr1
      obtain ⟨hrd, hrl⟩ := runAgentsRR_round_role respond roles pg ib rn ats hist r1 hmem
      refine ⟨r1, by rw [hsplit]; exact hr1, ?_, hrl, ?_⟩
      · rw [Nat.mod_eq_of_lt hkN, ha, hty]
      · rw [Nat.div_eq_of_lt hkN]
        simpa using hrd
    · have hge : ats.length ≤ k := Nat.le_of_not_lt hkN
      have hsplit : (runRoundsRR respond roles pg ib ats (m + 1) rn hist).1[k]? =
          (runRoundsRR respond roles pg ib ats m (rn + 1)
            (runAgentsRR respond roles pg ib rn ats hist).2).1[k - ats.length]? := by
        simp only [runRoundsRR]
        rw [List.getElem?_append_right (by rw [hlen1]; exact hge), hlen1]
      have hk2 : k - ats.length < m * ats.length := by
        have hsm : (m + 1) * ats.length = m * ats.length + ats.length :=
          Nat.succ_mul m ats.length
        omega
      obtain ⟨r1, hr1, hat, hrl, hrd⟩ :=
        ih (rn + 1) (runAgentsRR respond roles pg ib rn ats hist).2 (k - ats.length) hk2
      have hke : ats.length + (k - ats.length) = k := Nat.add_sub_cancel' hge
      have hmod : k % ats.length = (k - ats.length) % ats.length := by
        conv_lhs => rw [← hke]
        rw [Nat.add_mod_left]
      have hdiv : k / ats.length = (k - ats.length) / ats.length + 1 := by
        conv_lhs => rw [← hke]
        rw [Nat.add_comm, Nat.add_div_right _ hN]
      refine ⟨r1, by rw [hsplit]; exact hr1, by rw [hmod]; exact hat, hrl, ?_⟩
      have heq : rn + k / ats.length + 1 =
          rn + 1 + (k - ats.length) / ats.length + 1 := by
        rw [hdiv]; omega
      rw [heq]
      exact hrd

theorem runAgentsRRAsync_ok (respond : String → String → List Msg → String)
    (roles : String → String) (pg : String → Option Nat → List Msg → String)
    (ib : Bool) (rn : Nat) (agents : List String) :
    ∀ hist,
      (runAgentsRRAsync (fun a p h => Except.ok (respond a p h)) roles pg ib rn agents hist).2.1 =
        (runAgentsRR respond roles pg ib rn agents hist).2 ∧
      (runAgentsRRAsync (fun a p h => Except.ok (respond a p h)) roles pg ib rn agents hist).2.2 =
        Except.ok (runAgentsRR respond roles pg ib rn agents hist).1 := by
  induction agents with
  | nil => intro hist; exact ⟨rfl, rfl⟩
  | cons a rest ih =>
    intro hist
    simp [runAgentsRRAsync, runAgentsRR, (ih _).1, (ih _).2, Except.map]

theorem runRoundsRRAsync_ok (respond : String → String → List Msg → String)
    (roles : String → String) (pg : String → Option Nat → List Msg → String)
    (ib : Bool) (ats : List String) (total : Nat) (rem : Nat) :
    ∀ rn hist,
      (runRoundsRRAsync (fun a p h => Except.ok (respond a p h)) roles pg ib ats total rem rn hist).2.1 =
        (runRoundsRR respond roles pg ib ats rem rn hist).2 ∧
      (runRoundsRRAsync (fun a p h => Except.ok (respond a p h)) roles pg ib ats total rem rn hist).2.2 =
        Except.ok (runRoundsRR respond roles pg ib ats rem rn hist).1 := by
  induction rem with
  | zero => intro rn hist; exact ⟨rfl, rfl⟩
  | succ m ih =>
    intro rn hist
    have h1 := runAgentsRRAsync_ok respond roles pg ib rn ats hist
    simp [runRoundsRRAsync, runRoundsRR, h1.1, h1.2, (ih _ _).1, (ih _ _).2, Except.map]

/-- C1.  Round-robin over `R` rounds and the configured agent list of
length `N`, starting from the shared history holding exactly the initial
task message: exactly `R × N` turn records are produced; record `k`
belongs to agent `ats[k % N]` (role-position-minor) with role label
`roles` of that agent and round string `str(k / N + 1)` (round-major,
rounds numbered 1..R — this enumeration is duplicate- and gap-free); the
shared history afterwards holds exactly `1 + R × N` messages; and the
async variant (when no capability call fails) returns exactly the same
records and history. -/
theorem run_round_robin_spec (respond : String → String → List Msg → String)
    (roles : String → String) (pg : String → Option Nat → List Msg → String)
    (ats : List String) (R : Nat) (task : String) (ib : Bool) :
    (add_initial_task [] task).length = 1 ∧
    (run_round_robin respond roles pg ats R ib (add_initial_task [] task)).1.length =
      R * ats.length ∧
    (run_round_robin respond roles pg ats R ib (add_initial_task [] task)).2.length =
      1 + R * ats.length ∧
    (∀ k, k < R * ats.length →
      ∃ r1, (run_round_robin respond roles pg ats R ib (add_initial_task [] task)).1[k]? =
          some r1 ∧
        ats[k % ats.length]? = some r1.agent_type ∧
        r1.role = roles r1.agent_type ∧
        r1.round = some (toString (k / ats.length + 1))) ∧
    (run_round_robin_async (fun a p h => Except.ok (respond a p h)) roles pg ats R ib
        (add_initial_task [] task)).2.2 =
      Except.ok (run_round_robin respond roles pg ats R ib (add_initial_task [] task)).1 ∧
    (run_round_robin_async (fun a p h => Except.ok (respond a p h)) roles pg ats R ib
        (add_initial_task [] task)).2.1 =
      (run_round_robin respond roles pg ats R ib (add_initial_task [] task)).2 := by
  refine ⟨rfl, ?_, ?_, ?_, ?_, ?_⟩
  · exact runRoundsRR_length respond roles pg ib ats R 0 (add_initial_task [] task)
  · rw [run_round_robin, runRoundsRR_hist respond roles pg ib ats R 0 (add_initial_task [] task)]
    simp [add_initial_task, runRoundsRR_length respond roles pg ib ats R 0]
    omega
  · intro k hk
    obtain ⟨r1, hr1, hat, hrl, hrd⟩ :=
      runRoundsRR_idx respond roles pg ib ats R 0 (add_initial_task [] task) k hk
    refine ⟨r1, hr1, hat, hrl, ?_⟩
    simpa using hrd
  · exact (runRoundsRRAsync_ok respond roles pg ib ats R R 0 (add_initial_task [] task)).2
  · exact (runRoundsRRAsync_ok respond roles pg ib ats R R 0 (add_initial_task [] task)).1

/-- C1 (witness).  With two agents and two rounds, turn 2 (0-based) is the
first agent of round 2. -/
theorem run_round_robin_spec_witness :
    ∃ r1, (run_round_robin respondEx rolesEx pgEx atsEx 2 false
        (add_initial_task [] "t")).1[2]? = some r1 ∧
      atsEx[2 % atsEx.length]? = some r1.agent_type ∧
      r1.role = rolesEx r1.agent_type ∧
      r1.round = some (toString (2 / atsEx.length + 1)) :=
  (run_round_robin_spec respondEx rolesEx pgEx atsEx 2 "t" false).2.2.2.1 2 (by decide)

theorem runAgentsSeq_length (respond : String → String → List Msg → String)
    (roles : String → String) (pg : String → Option Nat → List Msg → String)
    (ib : Bool) (agents : List String) :
    ∀ hist, (runAgentsSeq respond roles pg ib agents hist).1.length = agents.length := by
  induction agents with
  | nil => intro hist; rfl
  | cons a rest ih => intro hist; simp [runAgentsSeq, ih]

theorem runAgentsSeq_hist (respond : String → String → List Msg → String)
    (roles : String → String) (pg : String → Option Nat → List Msg → String)
    (ib : Bool) (agents : List String) :
    ∀ hist, (runAgentsSeq respond roles pg ib agents hist).2 =
      hist ++ ((runAgentsSeq respond roles pg ib agents hist).1).map fmtMsg := by
  induction agents with
  | nil => intro hist; simp [runAgentsSeq]
  | cons a rest ih => intro hist; simp [runAgentsSeq, ih]

theorem runAgentsSeq_get (respond : String → String → List Msg → String)
    (roles : String → String) (pg : String → Option Nat → List Msg → String)
    (ib : Bool) (agents : List String) :
    ∀ hist (j : Nat),
      ((runAgentsSeq respond roles pg ib agents hist).1[j]?).map TurnRec.agent_type =
        agents[j]? := by
  induction agents with
  | nil => intro hist j; simp [runAgentsSeq]
  | cons a rest ih =>
    intro hist j
    cases j with
    | zero => simp [runAgentsSeq]
    | succ k => simp [runAgentsSeq, ih]

theorem runAgentsSeq_resp (respond : String → String → List Msg → String)
    (roles : String → String) (pg : String → Option Nat → List Msg → String)
    (ib : Bool) (agents : List String) :
    ∀ hist (k : Nat) r1,
      (runAgentsSeq respond roles pg ib agents hist).1[k]? = some r1 →
      r1.role = roles r1.agent_type ∧ r1.round = none ∧
      r1.response = respond r1.agent_type
        (seqPromptOf pg ib r1.agent_type
          (hist ++ (((runAgentsSeq respond roles pg ib agents hist).1.take k).map fmtMsg)))
        (hist ++ (((runAgentsSeq respond roles pg ib agents hist).1.take k).map fmtMsg)) := by
  induction agents with
  | nil => intro hist k r1 h; simp [runAgentsSeq] at h
  | cons a rest ih =>
    intro hist k r1 h
    cases k with
    | zero =>
      simp only [runAgentsSeq, List.getElem?_cons_zero, Option.some.injEq] at h
      subst h
      refine ⟨rfl, rfl, ?_⟩
      simp [runAgentsSeq]
    | succ k2 =>
      simp only [runAgentsSeq, List.getElem?_cons_succ] at h
      obtain ⟨hrl, hrd, hresp⟩ := ih _ k2 r1 h
      refine ⟨hrl, hrd, ?_⟩
      simp only [runAgentsSeq, List.take_succ_cons, List.map_cons]
      rw [show ∀ (x : Msg) (l : List Msg), hist ++ (x :: l) = (hist ++ [x]) ++ l from
        fun x l => by simp]
      exact hresp

/-- C3.  A sequential run over the configured agent list of length `N`
produces exactly `N` records, visiting the list once in its configured
order (record `k` is agent `ats[k]`, with no round number); the final
shared history is the initial history followed by the formatted replies in
turn order (each reply appended before the next agent is invoked); and
record `k`'s response is the agent capability applied to exactly the
initial history plus the formatted replies of the strictly earlier records
— no later reply is visible to it. -/
theorem run_sequential_spec (respond : String → String → List Msg → String)
    (roles : String → String) (pg : String → Option Nat → List Msg → String)
    (ats : List String) (ib : Bool) (hist0 : List Msg) :
    (run_sequential respond roles pg ats ib hist0).1.length = ats.length ∧
    (run_sequential respond roles pg ats ib hist0).2 =
      hist0 ++ ((run_sequential respond roles pg ats ib hist0).1).map fmtMsg ∧
    (∀ k : Nat, ((run_sequential respond roles pg ats ib hist0).1[k]?).map TurnRec.agent_type =
      ats[k]?) ∧
    (∀ (k : Nat) r1, (run_sequential respond roles pg ats ib hist0).1[k]? = some r1 →
      r1.role = roles r1.agent_type ∧ r1.round = none ∧
      r1.response = respond r1.agent_type
        (seqPromptOf pg ib r1.agent_type
          (hist0 ++ (((run_sequential respond roles pg ats ib hist0).1.take k).map fmtMsg)))
        (hist0 ++ (((run_sequential respond roles pg ats ib hist0).1.take k).map fmtMsg))) :=
  ⟨runAgentsSeq_length respond roles pg ib ats hist0,
   runAgentsSeq_hist respond roles pg ib ats hist0,
   fun k => runAgentsSeq_get respond roles pg ib ats hist0 k,
   fun k r1 h => runAgentsSeq_resp respond roles pg ib ats hist0 k r1 h⟩

/-- C3 (witness).  With two agents, the second agent's invocation sees the
initial task plus the first agent's reply, and nothing later. -/
theorem run_sequential_spec_witness :
    seqWitnessRec.role = rolesEx seqWitnessRec.agent_type ∧
    seqWitnessRec.round = none ∧
    seqWitnessRec.response = respondEx seqWitnessRec.agent_type
      (seqPromptOf pgEx false seqWitnessRec.agent_type
        ((add_initial_task [] "t") ++
          (((run_sequential respondEx rolesEx pgEx atsEx false
            (add_initial_task [] "t")).1.take 1).map fmtMsg)))
      ((add_initial_task [] "t") ++
        (((run_sequential respondEx rolesEx pgEx atsEx false
          (add_initial_task [] "t")).1.take 1).map fmtMsg)) :=
  (run_sequential_spec respondEx rolesEx pgEx atsEx false
    (add_initial_task [] "t")).2.2.2 1 seqWitnessRec (by decide)

theorem runAgentsAdaptive_length (respond : String → String → List Msg → String)
    (roles : String → String) (pg : String → Option Nat → List Msg → String)
    (rn : Nat) (agents : List String) :
    ∀ hist, (runAgentsAdaptive respond roles pg rn agents hist).1.length = agents.length := by
  induction agents with
  | nil => intro hist; rfl
  | cons a rest ih => intro hist; simp [runAgentsAdaptive, ih]

theorem run_adaptive_loop_count (respond : String → String → List Msg → String)
    (roles : String → String) (pg : String → Option Nat → List Msg → String)
    (modResp : List Msg → String) (ats : List String) (rem : Nat) :
    ∀ rn acc hist, ∃ k2, k2 ≤ rem ∧
      (run_adaptive_loop respond roles pg modResp ats rem rn acc hist).1.rounds_completed =
        rn + k2 ∧
      (run_adaptive_loop respond roles pg modResp ats rem rn acc hist).1.responses.length =
        acc.length + k2 * ats.length := by
  induction rem with
  | zero => intro rn acc hist; exact ⟨0, Nat.le_refl 0, rfl, by simp [run_adaptive_loop]⟩
  | succ m ih =>
    intro rn acc hist
    by_cases hc : (should_continue_decision
        (modResp (runAgentsAdaptive respond roles pg (rn + 1) ats hist).2)).1
    · obtain ⟨k2, hk2, hrc, hlen⟩ :=
        ih (rn + 1) (acc ++ (runAgentsAdaptive respond roles pg (rn + 1) ats hist).1)
          (runAgentsAdaptive respond roles pg (rn + 1) ats hist).2
      refine ⟨k2 + 1, by omega, ?_, ?_⟩
      · simp only [run_adaptive_loop, hc, if_true]
        omega
      · simp only [run_adaptive_loop, hc, if_true]
        rw [hlen]
        simp [runAgentsAdaptive_length, Nat.succ_mul]
        omega
    · refine ⟨1, by omega, ?_, ?_⟩
      · simp [run_adaptive_loop, hc]
      · simp [run_adaptive_loop, hc, runAgentsAdaptive_length, Nat.succ_mul]

theorem run_adaptive_loop_maxed (respond : String → String → List Msg → String)
    (roles : String → String) (pg : String → Option Nat → List Msg → String)
    (modResp : List Msg → String) (ats : List String) (rem : Nat) :
    ∀ rn acc hist,
      (run_adaptive_loop respond roles pg modResp ats rem rn acc hist).1.max_rounds_reached =
        true →
      (run_adaptive_loop respond roles pg modResp ats rem rn acc hist).1.rounds_completed =
        rn + rem ∧
      (run_adaptive_loop respond roles pg modResp ats rem rn acc hist).1.completion_reason =
        "Maximum rounds reached" := by
  induction rem with
  | zero => intro rn acc hist _; exact ⟨rfl, rfl⟩
  | succ m ih =>
    intro rn acc hist hm
    by_cases hc : (should_continue_decision
        (modResp (runAgentsAdaptive respond roles pg (rn + 1) ats hist).2)).1
    · simp only [run_adaptive_loop, hc, if_true] at hm ⊢
      obtain ⟨h1, h2⟩ := ih (rn + 1) _ _ hm
      exact ⟨by omega, h2⟩
    · simp [run_adaptive_loop, hc] at hm

theorem run_adaptive_loop_early (respond : String → String → List Msg → String)
    (roles : String → String) (pg : String → Option Nat → List Msg → String)
    (modResp : List Msg → String) (ats : List String) (rem : Nat) :
    ∀ rn acc hist,
      (run_adaptive_loop respond roles pg modResp ats rem rn acc hist).1.max_rounds_reached =
        false →
      (run_adaptive_loop respond roles pg modResp ats rem rn acc hist).1.completion_reason =
        pyStrip (modResp (run_adaptive_loop respond roles pg modResp ats rem rn acc hist).2) ∧
      pyStartsWith
        (pyStrip (modResp (run_adaptive_loop respond roles pg modResp ats rem rn acc hist).2))
        "CONTINUE" = false := by
  induction rem with
  | zero => intro rn acc hist hm; simp [run_adaptive_loop] at hm
  | succ m ih =>
    intro rn acc hist hm
    by_cases hc : (should_continue_decision
        (modResp (runAgentsAdaptive respond roles pg (rn + 1) ats hist).2)).1
    · simp only [run_adaptive_loop, hc, if_true] at hm ⊢
      exact ih (rn + 1) _ _ hm
    · simp only [run_adaptive_loop, hc, if_false, Bool.false_eq_true] at hm ⊢
      constructor
      · rfl
      · simpa [should_continue_decision] using hc

theorem run_adaptive_loop_last_check (respond : String → String → List Msg → String)
    (roles : String → String) (pg : String → Option Nat → List Msg → String)
    (modResp : List Msg → String) (ats : List String) (rem : Nat) :
    ∀ rn acc hist, 1 ≤ rem →
      (run_adaptive_loop respond roles pg modResp ats rem rn acc hist).1.max_rounds_reached =
        true →
      pyStartsWith
        (pyStrip (modResp (run_adaptive_loop respond roles pg modResp ats rem rn acc hist).2))
        "CONTINUE" = true := by
  induction rem with
  | zero => intro rn acc hist h1; omega
  | succ m ih =>
    intro rn acc hist _ hm
    by_cases hc : (should_continue_decision
        (modResp (runAgentsAdaptive respond roles pg (rn + 1) ats hist).2)).1
    · cases m with
      | zero =>
        simp only [run_adaptive_loop, hc, if_true]
        simpa [should_continue_decision] using hc
      | succ m2 =>
        simp only [run_adaptive_loop, hc, if_true] at hm ⊢
        exact ih (rn + 1) _ _ (by omega) hm
    · simp [run_adaptive_loop, hc] at hm

/-- C2 (counterexample).  The claim quantifies over every `maxRounds`
`M ≥ 0` and says `max_rounds_reached = true` iff `rounds_completed = M`
and the continuation check after the final completed round still said
continue.  At `M = 0` (src/orchestrator.py:258: the `while` body never
runs) the run performs no continuation check at all — here the moderator
oracle replies "COMPLETE: done" to everything, so no check could ever have
said continue — and yet the record reports `max_rounds_reached = true`
with `rounds_completed = 0`. -/
theorem adaptive_zero_rounds_counterexample :
    (run_adaptive_discussion respondEx rolesEx pgEx modRespEx atsEx 0
      (add_initial_task [] "t")).1.max_rounds_reached = true ∧
    (run_adaptive_discussion respondEx rolesEx pgEx modRespEx atsEx 0
      (add_initial_task [] "t")).1.rounds_completed = 0 ∧
    (run_adaptive_discussion respondEx rolesEx pgEx modRespEx atsEx 0
      (add_initial_task [] "t")).1.completion_reason = "Maximum rounds reached" ∧
    pyStartsWith (pyStrip (modRespEx [])) "CONTINUE" = false :=
  ⟨rfl, rfl, rfl, by decide⟩

/-- C2 (amended).  `run_adaptive_discussion` with budget `M` completes at
most `M` rounds and stops immediately after the round whose check says
complete (`responses` holds exactly `rounds_completed` full rounds of
records).  For `M ≥ 1`, `max_rounds_reached = true` iff
`rounds_completed = M` and the continuation check after the final
completed round (evaluated on the returned history) still said continue;
when the run stops early, `completion_reason` is the moderator's stripped
decision text, which did not start with CONTINUE.  For `M = 0` no round
and no continuation check runs, and the record reports zero completed
rounds, no responses, reason "Maximum rounds reached" and
`max_rounds_reached = true`. -/
theorem run_adaptive_spec (respond : String → String → List Msg → String)
    (roles : String → String) (pg : String → Option Nat → List Msg → String)
    (modResp : List Msg → String) (ats : List String) (M : Nat) (hist0 : List Msg) :
    (run_adaptive_discussion respond roles pg modResp ats M hist0).1.rounds_completed ≤ M ∧
    (run_adaptive_discussion respond roles pg modResp ats M hist0).1.responses.length =
      (run_adaptive_discussion respond roles pg modResp ats M hist0).1.rounds_completed *
        ats.length ∧
    (M = 0 → (run_adaptive_discussion respond roles pg modResp ats M hist0).1 =
      { responses := [], rounds_completed := 0,
        completion_reason := "Maximum rounds reached", max_rounds_reached := true }) ∧
    (1 ≤ M →
      ((run_adaptive_discussion respond roles pg modResp ats M hist0).1.max_rounds_reached =
          true ↔
        (run_adaptive_discussion respond roles pg modResp ats M hist0).1.rounds_completed =
          M ∧
        pyStartsWith
          (pyStrip (modResp (run_adaptive_discussion respond roles pg modResp ats M hist0).2))
          "CONTINUE" = true)) ∧
    ((run_adaptive_discussion respond roles pg modResp ats M hist0).1.max_rounds_reached =
        false →
      (run_adaptive_discussion respond roles pg modResp ats M hist0).1.completion_reason =
        pyStrip (modResp (run_adaptive_discussion respond roles pg modResp ats M hist0).2) ∧
      pyStartsWith
        (pyStrip (modResp (run_adaptive_discussion respond roles pg modResp ats M hist0).2))
        "CONTINUE" = false) := by
  obtain ⟨k2, hk2, hrc, hlen⟩ :=
    run_adaptive_loop_count respond roles pg modResp ats M 0 [] hist0
  refine ⟨?_, ?_, ?_, ?_, ?_⟩
  · rw [run_adaptive_discussion, hrc]; omega
  · rw [run_adaptive_discussion, hlen, hrc]; simp
  · intro h0; subst h0; rfl
  · intro hM
    constructor
    · intro hm
      obtain ⟨h1, _⟩ := run_adaptive_loop_maxed respond roles pg modResp ats M 0 [] hist0 hm
      exact ⟨by rw [run_adaptive_discussion, h1]; omega,
        run_adaptive_loop_last_check respond roles pg modResp ats M 0 [] hist0 hM hm⟩
    · rintro ⟨_, hsw⟩
      cases hm : (run_adaptive_discussion respond roles pg modResp ats M hist0).1.max_rounds_reached with
      | true => rfl
      | false =>
        obtain ⟨_, hfalse⟩ := run_adaptive_loop_early respond roles pg modResp ats M 0 [] hist0 hm
        rw [run_adaptive_discussion] at hsw
        rw [hsw] at hfalse
        exact absurd hfalse (by simp)
  · intro hm
    exact run_adaptive_loop_early respond roles pg modResp ats M 0 [] hist0 hm

/-- C2 (witness).  With a moderator that always replies "COMPLETE: done"
and budget 1, the run stops early and reports the stripped decision as the
reason. -/
theorem run_adaptive_spec_witness :
    (run_adaptive_discussion respondEx rolesEx pgEx modRespEx atsEx 1
      (add_initial_task [] "t")).1.completion_reason =
      pyStrip (modRespEx (run_adaptive_discussion respondEx rolesEx pgEx modRespEx atsEx 1
        (add_initial_task [] "t")).2) ∧
    pyStartsWith
      (pyStrip (modRespEx (run_adaptive_discussion respondEx rolesEx pgEx modRespEx atsEx 1
        (add_initial_task [] "t")).2))
      "CONTINUE" = false :=
  (run_adaptive_spec respondEx rolesEx pgEx modRespEx atsEx 1
    (add_initial_task [] "t")).2.2.2.2 (by decide)

theorem isRunningS_iff (s : DiscussionStatus) :
    isRunningS s = true ↔ s = DiscussionStatus.RUNNING := by
  cases s <;> simp [isRunningS]

theorem isTerminalS_iff (s : DiscussionStatus) :
    isTerminalS s = true ↔
      (s = DiscussionStatus.COMPLETED ∨ s = DiscussionStatus.FAILED) := by
  cases s <;> simp [isTerminalS]

theorem update_status_state_status (d : DiscussionState) (s : DiscussionStatus)
    (e : Option String) (t : Nat) : (update_status_state d s e t).status = s := by
  cases e with
  | none => simp only [update_status_state]; split_ifs <;> rfl
  | some msg => simp only [update_status_state]; split_ifs <;> rfl

theorem update_status_state_events (d : DiscussionState) (s : DiscussionStatus)
    (e : Option String) (t : Nat) : (update_status_state d s e t).events = d.events := by
  cases e with
  | none => simp only [update_status_state]; split_ifs <;> rfl
  | some msg => simp only [update_status_state]; split_ifs <;> rfl

theorem update_status_state_started (d : DiscussionState) (s : DiscussionStatus)
    (e : Option String) (t : Nat) :
    (update_status_state d s e t).started_at =
      if isRunningS s = true ∧ d.started_at = none then some t else d.started_at := by
  cases e with
  | none =>
    simp only [update_status_state, isRunningS_iff]
    split_ifs <;> simp_all
  | some msg =>
    simp only [update_status_state, isRunningS_iff]
    split_ifs <;> simp_all

theorem update_status_state_completed (d : DiscussionState) (s : DiscussionStatus)
    (e : Option String) (t : Nat) :
    (update_status_state d s e t).completed_at =
      if isTerminalS s = true then some t else d.completed_at := by
  cases e with
  | none =>
    cases s <;> cases hsa : d.started_at <;>
      simp [update_status_state, isTerminalS, hsa]
  | some msg =>
    cases s <;> cases hsa : d.started_at <;> by_cases hm : msg = "" <;>
      simp [update_status_state, isTerminalS, hsa, hm]

theorem update_status_state_error (d : DiscussionState) (s : DiscussionStatus)
    (t : Nat) (msg : String) :
    (update_status_state d s (some msg) t).error =
      (if msg ≠ "" then some msg else d.error) := by
  simp only [update_status_state]
  split_ifs <;> rfl

theorem update_status_state_error_none (d : DiscussionState) (s : DiscussionStatus)
    (t : Nat) : (update_status_state d s none t).error = d.error := by
  simp only [update_status_state]
  split_ifs <;> rfl

theorem apply_status_calls_fields (calls : List (DiscussionStatus × Option String)) :
    ∀ (d : DiscussionState) (t0 : Nat),
      (apply_status_calls d calls t0).status = (calls.map Prod.fst).getLastD d.status ∧
      (apply_status_calls d calls t0).started_at =
        (match d.started_at with
         | some x => some x
         | none => firstIdxFrom isRunningS t0 (calls.map Prod.fst)) ∧
      (apply_status_calls d calls t0).completed_at =
        (match lastIdxFrom isTerminalS t0 (calls.map Prod.fst) with
         | some i => some i
         | none => d.completed_at) := by
  induction calls with
  | nil =>
    intro d t0
    exact ⟨rfl, by cases h : d.started_at <;> simp [apply_status_calls, firstIdxFrom, h],
      by simp [apply_status_calls, lastIdxFrom]⟩
  | cons c rest ih =>
    intro d t0
    obtain ⟨ihs, ihst, ihc⟩ := ih (update_status_state d c.1 c.2 t0) (t0 + 1)
    refine ⟨?_, ?_, ?_⟩
    · rw [apply_status_calls, ihs, update_status_state_status, List.map_cons,
        List.getLastD_cons]
    · rw [apply_status_calls, ihst, update_status_state_started]
      cases hsa : d.started_at with
      | some x => simp [hsa]
      | none =>
        cases hr : isRunningS c.1 with
        | true => simp [hr, firstIdxFrom]
        | false => simp [hr, firstIdxFrom]
    · rw [apply_status_calls, ihc, update_status_state_completed]
      cases h2 : lastIdxFrom isTerminalS (t0 + 1) (rest.map Prod.fst) with
      | some i => simp [lastIdxFrom, h2]
      | none =>
        cases ht : isTerminalS c.1 with
        | true => simp [lastIdxFrom, h2, ht]
        | false => simp [lastIdxFrom, h2, ht]

/-- C7 (counterexample).  The claim says COMPLETED and FAILED are terminal
and `started_at` is set only on the PENDING→RUNNING transition.
`DiscussionManager.update_status` has no terminal-state guard: on a fresh
discussion, calling it with COMPLETED and then with RUNNING leaves a
COMPLETED discussion, transitions it out of COMPLETED into RUNNING, and
sets `started_at` on that COMPLETED→RUNNING transition. -/
theorem terminal_state_left_counterexample :
    (lookupA "d1" (exManager.update_status "d1" DiscussionStatus.COMPLETED none
      1).discussions).map DiscussionState.status = some DiscussionStatus.COMPLETED ∧
    (lookupA "d1" (exManager.update_status "d1" DiscussionStatus.COMPLETED none
      1).discussions).map DiscussionState.completed_at = some (some 1) ∧
    (lookupA "d1" ((exManager.update_status "d1" DiscussionStatus.COMPLETED none 1).update_status
      "d1" DiscussionStatus.RUNNING none 2).discussions).map DiscussionState.status =
      some DiscussionStatus.RUNNING ∧
    (lookupA "d1" ((exManager.update_status "d1" DiscussionStatus.COMPLETED none 1).update_status
      "d1" DiscussionStatus.RUNNING none 2).discussions).map DiscussionState.started_at =
      some (some 2) := by
  refine ⟨rfl, rfl, rfl, rfl⟩

/-- C7 (amended).  Over any sequence of `update_status` calls on a freshly
created discussion (call `i` stamped with time `i`): the status after the
sequence is always the last call's status — no status, COMPLETED and
FAILED included, blocks a later transition; `started_at` is set at most
once, at the first call with status RUNNING, whatever the previous status
was; and `completed_at` is overwritten on every call with status COMPLETED
or FAILED, so it ends at the last such call (rather than being set exactly
once). -/
theorem update_status_lifecycle (id sid task : String) (ats : List String)
    (mode : String) (cn : Nat) (calls : List (DiscussionStatus × Option String)) :
    (apply_status_calls (create_discussion_state id sid task ats mode cn) calls 0).status =
      (calls.map Prod.fst).getLastD DiscussionStatus.PENDING ∧
    (apply_status_calls (create_discussion_state id sid task ats mode cn) calls 0).started_at =
      firstIdxFrom isRunningS 0 (calls.map Prod.fst) ∧
    (apply_status_calls (create_discussion_state id sid task ats mode cn) calls 0).completed_at =
      lastIdxFrom isTerminalS 0 (calls.map Prod.fst) := by
  obtain ⟨hs, hst, hc⟩ :=
    apply_status_calls_fields calls (create_discussion_state id sid task ats mode cn) 0
  refine ⟨hs, ?_, ?_⟩
  · rw [hst]
    simp [create_discussion_state]
  · rw [hc]
    cases h2 : lastIdxFrom isTerminalS 0 (calls.map Prod.fst) <;>
      simp [create_discussion_state]

theorem lookupA_modifyAssoc_self {α : Type} (f : α → α) (k : String) :
    ∀ l : List (String × α), lookupA k (modifyAssoc f k l) = (lookupA k l).map f := by
  intro l
  induction l with
  | nil => rfl
  | cons kv rest ih =>
    by_cases h : kv.1 = k
    · simp [modifyAssoc, lookupA, h]
    · simp [modifyAssoc, lookupA, h, ih]

theorem lookupA_modifyAssoc_ne {α : Type} (f : α → α) (k k2 : String) (hne : k2 ≠ k) :
    ∀ l : List (String × α), lookupA k2 (modifyAssoc f k l) = lookupA k2 l := by
  intro l
  induction l with
  | nil => rfl
  | cons kv rest ih =>
    by_cases h : kv.1 = k
    · have h2 : kv.1 ≠ k2 := by rw [h]; exact fun he => hne he.symm
      simp [modifyAssoc, lookupA, h, h2, Ne.symm hne]
    · simp only [modifyAssoc, if_neg h]
      by_cases h3 : kv.1 = k2
      · simp [lookupA, h3]
      · simp [lookupA, h3, ih]

theorem publish_spec (m : DiscussionManager) (id : String) (ty : String) (data : EvData)
    (now : Nat)
    (d : DiscussionState) (hd : lookupA id m.discussions = some d) :
    lookupA id (emit_event m id ty data now).discussions =
      some { d with events :=
        d.events ++ [{ event_type := ty, timestamp := now, data := data }] } ∧
    (∀ id2, id2 ≠ id → lookupA id2 (emit_event m id ty data now).discussions =
      lookupA id2 m.discussions) ∧
    (∀ qs, lookupA id m.subscribers = some qs →
      lookupA id (emit_event m id ty data now).subscribers =
        some (qs.map (fun q =>
          q ++ [{ event_type := ty, timestamp := now, data := data }]))) ∧
    (lookupA id m.subscribers = none →
      (emit_event m id ty data now).subscribers = m.subscribers) ∧
    (∀ id2, id2 ≠ id → lookupA id2 (emit_event m id ty data now).subscribers =
      lookupA id2 m.subscribers) := by
  cases hsub : lookupA id m.subscribers with
  | none =>
    refine ⟨?_, ?_, ?_, ?_, ?_⟩
    · simp [emit_event, DiscussionManager.broadcast_event, hsub,
        lookupA_modifyAssoc_self, hd]
    · intro id2 h2
      simp [emit_event, DiscussionManager.broadcast_event, hsub,
        lookupA_modifyAssoc_ne _ _ _ h2]
    · intro qs hqs
      exact Option.noConfusion hqs
    · intro _
      simp [emit_event, DiscussionManager.broadcast_event, hsub]
    · intro id2 _
      simp [emit_event, DiscussionManager.broadcast_event, hsub]
  | some qs0 =>
    refine ⟨?_, ?_, ?_, ?_, ?_⟩
    · simp [emit_event, DiscussionManager.broadcast_event, hsub,
        lookupA_modifyAssoc_self, hd]
    · intro id2 h2
      simp [emit_event, DiscussionManager.broadcast_event, hsub,
        lookupA_modifyAssoc_ne _ _ _ h2]
    · intro qs hqs
      obtain rfl : qs0 = qs := Option.some.inj hqs
      simp [emit_event, DiscussionManager.broadcast_event, hsub,
        lookupA_modifyAssoc_self]
    · intro hn
      exact Option.noConfusion hn
    · intro id2 h2
      simp [emit_event, DiscussionManager.broadcast_event, hsub,
        lookupA_modifyAssoc_ne _ _ _ h2]

/-- C9.  Publishing an event (the background runner's `emit_event`:
`DiscussionState.add_event` followed by
`DiscussionManager.broadcast_event`) appends the event to the
discussion's event log and puts it at the end of every queue currently
subscribed to that discussion id; the published event is therefore in the
log; discussions and subscriber lists of other ids are untouched, and with
zero observers subscribed the subscriber table is left entirely unchanged
— the publish is a no-op beyond the log append, and no published event is
absent from the log. -/
theorem emit_event_publishes (m : DiscussionManager) (id ty : String) (data : EvData)
    (now : Nat) (d : DiscussionState) (hd : lookupA id m.discussions = some d) :
    (∃ d2, lookupA id (emit_event m id ty data now).discussions = some d2 ∧
      d2.events = d.events ++ [{ event_type := ty, timestamp := now, data := data }] ∧
      { event_type := ty, timestamp := now, data := data } ∈ d2.events) ∧
    (∀ id2, id2 ≠ id → lookupA id2 (emit_event m id ty data now).discussions =
      lookupA id2 m.discussions) ∧
    (∀ qs, lookupA id m.subscribers = some qs →
      lookupA id (emit_event m id ty data now).subscribers =
        some (qs.map (fun q =>
          q ++ [{ event_type := ty, timestamp := now, data := data }]))) ∧
    (lookupA id m.subscribers = none →
      (emit_event m id ty data now).subscribers = m.subscribers) ∧
    (∀ id2, id2 ≠ id → lookupA id2 (emit_event m id ty data now).subscribers =
      lookupA id2 m.subscribers) := by
  obtain ⟨h1, h2, h3, h4, h5⟩ := publish_spec m id ty data now d hd
  exact ⟨⟨_, h1, rfl, by simp⟩, h2, h3, h4, h5⟩

/-- C9 (witness).  On the concrete manager with one discussion and one
subscribed queue. -/
theorem emit_event_publishes_witness :
    (∃ d2, lookupA "d1" (emit_event exManager "d1" "agent_thinking"
        (EvData.thinkingD "junior_engineer" "Junior Engineer" 1) 3).discussions = some d2 ∧
      d2.events = (create_discussion_state "d1" "s1" "t" atsEx "round_robin" 0).events ++
        [{ event_type := "agent_thinking", timestamp := 3,
           data := EvData.thinkingD "junior_engineer" "Junior Engineer" 1 }] ∧
      { event_type := "agent_thinking", timestamp := 3,
        data := EvData.thinkingD "junior_engineer" "Junior Engineer" 1 } ∈ d2.events) ∧
    (∀ id2, id2 ≠ "d1" → lookupA id2 (emit_event exManager "d1" "agent_thinking"
        (EvData.thinkingD "junior_engineer" "Junior Engineer" 1) 3).discussions =
      lookupA id2 exManager.discussions) ∧
    (∀ qs, lookupA "d1" exManager.subscribers = some qs →
      lookupA "d1" (emit_event exManager "d1" "agent_thinking"
          (EvData.thinkingD "junior_engineer" "Junior Engineer" 1) 3).subscribers =
        some (qs.map (fun q =>
          q ++ [{ event_type := "agent_thinking", timestamp := 3,
                  data := EvData.thinkingD "junior_engineer" "Junior Engineer" 1 }]))) ∧
    (lookupA "d1" exManager.subscribers = none →
      (emit_event exManager "d1" "agent_thinking"
        (EvData.thinkingD "junior_engineer" "Junior Engineer" 1) 3).subscribers =
      exManager.subscribers) ∧
    (∀ id2, id2 ≠ "d1" → lookupA id2 (emit_event exManager "d1" "agent_thinking"
        (EvData.thinkingD "junior_engineer" "Junior Engineer" 1) 3).subscribers =
      lookupA id2 exManager.subscribers) :=
  emit_event_publishes exManager "d1" "agent_thinking"
    (EvData.thinkingD "junior_engineer" "Junior Engineer" 1) 3
    (create_discussion_state "d1" "s1" "t" atsEx "round_robin" 0) (by decide)

theorem mgr_update_status_subscribers (m : DiscussionManager) (id : String)
    (s : DiscussionStatus) (e : Option String) (now : Nat) :
    (m.update_status id s e now).subscribers = m.subscribers := by
  unfold DiscussionManager.update_status
  cases lookupA id m.discussions <;> rfl

theorem mgr_update_status_lookup (m : DiscussionManager) (id : String)
    (s : DiscussionStatus) (e : Option String) (now : Nat) (d : DiscussionState)
    (hd : lookupA id m.discussions = some d) :
    lookupA id (m.update_status id s e now).discussions =
      some (update_status_state d s e now) := by
  unfold DiscussionManager.update_status
  rw [hd]
  simp [lookupA_modifyAssoc_self, hd]

theorem stampEvs_payloads (ps : List EvPayload) :
    ∀ now, (stampEvs ps now).map (fun ev => (ev.event_type, ev.data)) = ps := by
  induction ps with
  | nil => intro now; rfl
  | cons p rest ih => intro now; simp [stampEvs, ih]

theorem stampEvs_no_error_filter (ps : List EvPayload) :
    ∀ now, ps.filter (fun p => p.1 == "error") = [] →
      (stampEvs ps now).filter (fun ev => ev.event_type == "error") = [] := by
  induction ps with
  | nil => intro now _; rfl
  | cons p rest ih =>
    intro now hp
    cases hb : (p.1 == "error") with
    | true => simp [List.filter_cons, hb] at hp
    | false =>
      simp only [List.filter_cons, hb, if_false, Bool.false_eq_true] at hp
      simp only [stampEvs, List.filter_cons, hb, if_false, Bool.false_eq_true]
      exact ih (now + 1) hp

theorem publishAll_spec (id : String) (ps : List EvPayload) :
    ∀ (m : DiscussionManager) (now : Nat) (d : DiscussionState),
      lookupA id m.discussions = some d →
      lookupA id (publishAll m id ps now).1.discussions =
          some { d with events := d.events ++ stampEvs ps now } ∧
        (∀ qs, lookupA id m.subscribers = some qs →
          lookupA id (publishAll m id ps now).1.subscribers =
            some (qs.map (fun q => q ++ stampEvs ps now))) ∧
        (lookupA id m.subscribers = none →
          (publishAll m id ps now).1.subscribers = m.subscribers) := by
  induction ps with
  | nil =>
    intro m now d hd
    refine ⟨?_, ?_, ?_⟩
    · simpa [publishAll, stampEvs] using hd
    · intro qs hqs
      simpa [publishAll, stampEvs] using hqs
    · intro _
      rfl
  | cons p rest ih =>
    intro m now d hd
    obtain ⟨p1, p2, p3, p4, p5⟩ := publish_spec m id p.1 p.2 now d hd
    obtain ⟨q1, q2, q3⟩ := ih (emit_event m id p.1 p.2 now) (now + 1)
      { d with events := d.events ++ [{ event_type := p.1, timestamp := now, data := p.2 }] } p1
    refine ⟨?_, ?_, ?_⟩
    · rw [show publishAll m id (p :: rest) now =
        publishAll (emit_event m id p.1 p.2 now) id rest (now + 1) from rfl]
      rw [q1]
      obtain ⟨f1, f2, f3, f4, f5, f6, f7, f8, f9, f10, f11⟩ := d
      simp [stampEvs, List.append_assoc]
    · intro qs hqs
      rw [show publishAll m id (p :: rest) now =
        publishAll (emit_event m id p.1 p.2 now) id rest (now + 1) from rfl]
      rw [q2 (qs.map (fun q =>
        q ++ [{ event_type := p.1, timestamp := now, data := p.2 }])) (p3 qs hqs)]
      simp [stampEvs, List.map_map, Function.comp, List.append_assoc]
    · intro hn
      rw [show publishAll m id (p :: rest) now =
        publishAll (emit_event m id p.1 p.2 now) id rest (now + 1) from rfl]
      rw [q3 (by rw [p4 hn]; exact hn), p4 hn]

theorem runAgentsRRAsync_filter (respond : String → String → List Msg → Except String String)
    (roles : String → String) (pg : String → Option Nat → List Msg → String)
    (ib : Bool) (rn : Nat) (agents : List String) :
    ∀ hist, ((runAgentsRRAsync respond roles pg ib rn agents hist).1.filter
      (fun p => p.1 == "error")) = [] := by
  induction agents with
  | nil => intro hist; rfl
  | cons a rest ih =>
    intro hist
    rcases hr : respond a (rrPromptOf pg ib rn a hist) hist with e | resp <;>
      simp [runAgentsRRAsync, hr, List.filter_cons, ih]

theorem runRoundsRRAsync_filter (respond : String → String → List Msg → Except String String)
    (roles : String → String) (pg : String → Option Nat → List Msg → String)
    (ib : Bool) (ats : List String) (total : Nat) (rem : Nat) :
    ∀ rn hist, ((runRoundsRRAsync respond roles pg ib ats total rem rn hist).1.filter
      (fun p => p.1 == "error")) = [] := by
  induction rem with
  | zero => intro rn hist; rfl
  | succ m ih =>
    intro rn hist
    rcases ho : (runAgentsRRAsync respond roles pg ib rn ats hist).2.2 with e | rs <;>
      simp [runRoundsRRAsync, ho, List.filter_cons, List.filter_append,
        runAgentsRRAsync_filter, ih]

theorem runAgentsSeqAsync_filter (respond : String → String → List Msg → Except String String)
    (roles : String → String) (pg : String → Option Nat → List Msg → String)
    (ib : Bool) (total : Nat) (agents : List String) :
    ∀ idx hist, ((runAgentsSeqAsync respond roles pg ib total agents idx hist).1.filter
      (fun p => p.1 == "error")) = [] := by
  induction agents with
  | nil => intro idx hist; rfl
  | cons a rest ih =>
    intro idx hist
    rcases hr : respond a (seqPromptOf pg ib a hist) hist with e | resp <;>
      simp [runAgentsSeqAsync, hr, List.filter_cons, ih]

theorem runAgentsAdaptiveAsync_filter (respond : String → String → List Msg → Except String String)
    (roles : String → String) (pg : String → Option Nat → List Msg → String)
    (rn : Nat) (agents : List String) :
    ∀ hist, ((runAgentsAdaptiveAsync respond roles pg rn agents hist).1.filter
      (fun p => p.1 == "error")) = [] := by
  induction agents with
  | nil => intro hist; rfl
  | cons a rest ih =>
    intro hist
    rcases hr : respond a (pg a (some rn) hist) hist with e | resp <;>
      simp [runAgentsAdaptiveAsync, hr, List.filter_cons, ih]

theorem runAdaptiveLoopAsync_filter (respond : String → String → List Msg → Except String String)
    (roles : String → String) (pg : String → Option Nat → List Msg → String)
    (modResp : List Msg → String) (ats : List String) (maxr : Nat) (rem : Nat) :
    ∀ rn acc hist,
      ((runAdaptiveLoopAsync respond roles pg modResp ats maxr rem rn acc hist).1.filter
        (fun p => p.1 == "error")) = [] := by
  induction rem with
  | zero => intro rn acc hist; rfl
  | succ m ih =>
    intro rn acc hist
    rcases ho : (runAgentsAdaptiveAsync respond roles pg (rn + 1) ats hist).2.2 with e | rs
    · simp [runAdaptiveLoopAsync, ho, List.filter_cons, runAgentsAdaptiveAsync_filter]
    · by_cases hc : (should_continue_decision
          (modResp (runAgentsAdaptiveAsync respond roles pg (rn + 1) ats hist).2.1)).1
      · simp [runAdaptiveLoopAsync, ho, hc, List.filter_cons, List.filter_append,
          runAgentsAdaptiveAsync_filter, ih]
      · simp [runAdaptiveLoopAsync, ho, hc, List.filter_cons, List.filter_append,
          runAgentsAdaptiveAsync_filter]

theorem run_discussion_async_filter (respond : String → String → List Msg → Except String String)
    (roles : String → String) (pg : String → Option Nat → List Msg → String)
    (modResp : List Msg → String) (mode : String) (ats : List String)
    (rounds : Nat) (ib : Bool) (hist : List Msg) :
    ((run_discussion_async respond roles pg modResp mode ats rounds ib hist).1.filter
      (fun p => p.1 == "error")) = [] := by
  by_cases h1 : mode = "round_robin"
  · simp [run_discussion_async, orchModeAttr, orchestrationModeMembers,
      List.lookup, h1, run_round_robin_async, runRoundsRRAsync_filter]
  · by_cases h2 : mode = "sequential"
    · simp [run_discussion_async, orchModeAttr, orchestrationModeMembers,
        List.lookup, h1, h2, run_sequential_async, List.filter_cons,
        runAgentsSeqAsync_filter]
    · simp [run_discussion_async, orchModeAttr, orchestrationModeMembers,
        List.lookup, h1, h2]

theorem bg_failure_tail (m2 : DiscussionManager) (id : String) (evs : List EvPayload)
    (c2 : Nat) (B2 : DiscussionState) (emsg : String)
    (h2 : lookupA id m2.discussions = some B2) :
    ∃ dfin,
      lookupA id (emit_event ((publishAll m2 id evs c2).1.update_status id
          DiscussionStatus.FAILED (some emsg) (publishAll m2 id evs c2).2) id "error"
          (EvData.errorD emsg) ((publishAll m2 id evs c2).2 + 1)).discussions = some dfin ∧
      dfin.status = DiscussionStatus.FAILED ∧
      (emsg ≠ "" → dfin.error = some emsg) ∧
      dfin.events = B2.events ++ stampEvs evs c2 ++
        [{ event_type := "error", timestamp := (publishAll m2 id evs c2).2 + 1,
           data := EvData.errorD emsg }] ∧
      (∀ qs, lookupA id m2.subscribers = some qs →
        lookupA id (emit_event ((publishAll m2 id evs c2).1.update_status id
            DiscussionStatus.FAILED (some emsg) (publishAll m2 id evs c2).2) id "error"
            (EvData.errorD emsg) ((publishAll m2 id evs c2).2 + 1)).subscribers =
          some (qs.map (fun q => q ++ (stampEvs evs c2 ++
            [{ event_type := "error", timestamp := (publishAll m2 id evs c2).2 + 1,
               data := EvData.errorD emsg }])))) := by
  obtain ⟨q1, q2, q3⟩ := publishAll_spec id evs m2 c2 B2 h2
  have h4 := mgr_update_status_lookup (publishAll m2 id evs c2).1 id
    DiscussionStatus.FAILED (some emsg) (publishAll m2 id evs c2).2 _ q1
  have h4s := mgr_update_status_subscribers (publishAll m2 id evs c2).1 id
    DiscussionStatus.FAILED (some emsg) (publishAll m2 id evs c2).2
  obtain ⟨r1, r2, r3, r4, r5⟩ := publish_spec
    ((publishAll m2 id evs c2).1.update_status id DiscussionStatus.FAILED (some emsg)
      (publishAll m2 id evs c2).2)
    id "error" (EvData.errorD emsg) ((publishAll m2 id evs c2).2 + 1) _ h4
  refine ⟨_, r1, ?_, ?_, ?_, ?_⟩
  · exact update_status_state_status _ _ _ _
  · intro hm
    have he := update_status_state_error
      { B2 with events := B2.events ++ stampEvs evs c2 }
      DiscussionStatus.FAILED (publishAll m2 id evs c2).2 emsg
    rw [if_pos hm] at he
    exact he
  · have hue := update_status_state_events
      { B2 with events := B2.events ++ stampEvs evs c2 }
      DiscussionStatus.FAILED (some emsg) (publishAll m2 id evs c2).2
    show (update_status_state _ _ _ _).events ++ _ = _
    rw [hue]
  · intro qs hqs
    have h5 : lookupA id ((publishAll m2 id evs c2).1.update_status id
        DiscussionStatus.FAILED (some emsg) (publishAll m2 id evs c2).2).subscribers =
        some (qs.map (fun q => q ++ stampEvs evs c2)) := by
      rw [h4s]
      exact q2 qs hqs
    have hr := r3 _ h5
    rw [hr]
    simp [List.map_map, Function.comp, List.append_assoc]

/-- C8 (counterexample).  The claim says the discussion's error field is
set verbatim to the exception's message.  `update_status` stores the error
only when it is truthy (src/services/discussion_manager.py:60): when the
capability raises an exception whose `str()` is the empty string, the
discussion still transitions to FAILED but its error field stays unset
(`None`), not `""`. -/
theorem background_empty_error_counterexample :
    (lookupA "d1" (run_orchestration_background exManager 0 respondFailEmptyEx rolesEx
      pgEx modRespEx "d1" "t" atsEx "round_robin" 1 false).discussions).map
        DiscussionState.status = some DiscussionStatus.FAILED ∧
    (lookupA "d1" (run_orchestration_background exManager 0 respondFailEmptyEx rolesEx
      pgEx modRespEx "d1" "t" atsEx "round_robin" 1 false).discussions).map
        DiscussionState.error = some none := by
  refine ⟨rfl, rfl⟩

/-- C8 (amended).  Whenever the engine's background run raises (any
capability failure surfacing from `run_discussion_async`), the discussion
transitions to FAILED; its error field is set verbatim to the exception's
message whenever that message is non-empty (an empty message leaves the
field unset, since `update_status` drops falsy errors); exactly one
`error` event — carrying the message verbatim — is appended to the event
log after all events emitted before the failure (`discussion_start` and
the run's own events, `agent_response` included, all remain in order), and
the whole log, the error event included, is broadcast in order to every
subscribed queue. -/
theorem background_failure_spec (m0 : DiscussionManager) (clock : Nat)
    (respond : String → String → List Msg → Except String String)
    (roles : String → String) (pg : String → Option Nat → List Msg → String)
    (modResp : List Msg → String) (id task : String) (ats : List String)
    (mode : String) (rounds : Nat) (ib : Bool) (d0 : DiscussionState) (e : PyErr)
    (hd : lookupA id m0.discussions = some d0)
    (hev : d0.events = [])
    (herr : (run_discussion_async respond roles pg modResp mode ats rounds ib
      (add_initial_task [] task)).2.2 = Except.error e) :
    ∃ dfin,
      lookupA id (run_orchestration_background m0 clock respond roles pg modResp
        id task ats mode rounds ib).discussions = some dfin ∧
      dfin.status = DiscussionStatus.FAILED ∧
      (e.message ≠ "" → dfin.error = some e.message) ∧
      dfin.events.map (fun ev => (ev.event_type, ev.data)) =
        ("discussion_start", EvData.bgStartD id task ats mode) ::
          ((run_discussion_async respond roles pg modResp mode ats rounds ib
            (add_initial_task [] task)).1 ++ [("error", EvData.errorD e.message)]) ∧
      (dfin.events.filter (fun ev => ev.event_type == "error")).length = 1 ∧
      (∀ qs, lookupA id m0.subscribers = some qs →
        lookupA id (run_orchestration_background m0 clock respond roles pg modResp
          id task ats mode rounds ib).subscribers =
          some (qs.map (fun q => q ++ dfin.events))) := by
  have h1 := mgr_update_status_lookup m0 id DiscussionStatus.RUNNING none clock d0 hd
  have h1s := mgr_update_status_subscribers m0 id DiscussionStatus.RUNNING none clock
  have hD1ev : (update_status_state d0 DiscussionStatus.RUNNING none clock).events = [] := by
    rw [update_status_state_events]; exact hev
  obtain ⟨p1, p2, p3, p4, p5⟩ := publish_spec
    (m0.update_status id DiscussionStatus.RUNNING none clock) id
    "discussion_start" (EvData.bgStartD id task ats mode) (clock + 1) _ h1
  rw [hD1ev] at p1
  simp only [List.nil_append] at p1
  obtain ⟨dfin, t1, t2, t3, t4, t5⟩ := bg_failure_tail
    (emit_event (m0.update_status id DiscussionStatus.RUNNING none clock) id
      "discussion_start" (EvData.bgStartD id task ats mode) (clock + 1))
    id
    ((run_discussion_async respond roles pg modResp mode ats rounds ib
      (add_initial_task [] task)).1)
    (clock + 2) _ e.message p1
  refine ⟨dfin, ?_, t2, t3, ?_, ?_, ?_⟩
  · simp only [run_orchestration_background, herr]
    exact t1
  · rw [t4]
    simp [stampEvs_payloads]
  · rw [t4]
    simp [List.filter_append,
      stampEvs_no_error_filter _ _ (run_discussion_async_filter respond roles pg modResp
        mode ats rounds ib (add_initial_task [] task))]
  · intro qs hqs
    have hq2 : lookupA id (emit_event (m0.update_status id DiscussionStatus.RUNNING none
        clock) id "discussion_start" (EvData.bgStartD id task ats mode)
        (clock + 1)).subscribers =
        some (qs.map (fun q => q ++
          [{ event_type := "discussion_start", timestamp := clock + 1,
             data := EvData.bgStartD id task ats mode }])) :=
      p3 qs (by rw [h1s]; exact hqs)
    have ht5 := t5 _ hq2
    simp only [run_orchestration_background, herr]
    rw [ht5, t4]
    simp [List.map_map, Function.comp, List.append_assoc]

/-- C8 (witness).  A concrete failing run: one round-robin round over two
agents whose LLM call raises "boom" on the first turn. -/
theorem background_failure_spec_witness :
    ∃ dfin,
      lookupA "d1" (run_orchestration_background exManager 0 respondFailEx rolesEx pgEx
        modRespEx "d1" "t" atsEx "round_robin" 1 false).discussions = some dfin ∧
      dfin.status = DiscussionStatus.FAILED ∧
      ((PyErr.capabilityError "boom").message ≠ "" →
        dfin.error = some (PyErr.capabilityError "boom").message) ∧
      dfin.events.map (fun ev => (ev.event_type, ev.data)) =
        ("discussion_start", EvData.bgStartD "d1" "t" atsEx "round_robin") ::
          ((run_discussion_async respondFailEx rolesEx pgEx modRespEx "round_robin" atsEx 1
            false (add_initial_task [] "t")).1 ++
            [("error", EvData.errorD (PyErr.capabilityError "boom").message)]) ∧
      (dfin.events.filter (fun ev => ev.event_type == "error")).length = 1 ∧
      (∀ qs, lookupA "d1" exManager.subscribers = some qs →
        lookupA "d1" (run_orchestration_background exManager 0 respondFailEx rolesEx pgEx
          modRespEx "d1" "t" atsEx "round_robin" 1 false).subscribers =
          some (qs.map (fun q => q ++ dfin.events))) :=
  background_failure_spec exManager 0 respondFailEx rolesEx pgEx modRespEx "d1" "t" atsEx
    "round_robin" 1 false (create_discussion_state "d1" "s1" "t" atsEx "round_robin" 0)
    (PyErr.capabilityError "boom") (by decide) rfl rfl

end MAD
